import Mathlib

/-!
Shallow embedding of the `lession` content-management backend core:
the asset upload lifecycle (AssetService, internal/usecase/asset_service)
and the series/episode aggregate rules (SeriesService, internal/usecase/
series_service, and the Ent-backed SeriesRepository / AssetRepository,
internal/adapter/db).

Modelling conventions:
* `uuid.UUID` is modelled as `Nat`, with `0` playing the role of `uuid.Nil`.
* `time.Time` instants are modelled as `Nat` clock values; the services'
  injected `now` clock becomes an explicit argument.
* Go `int`/`int64` quantities that the code compares against `0`
  (content length, page size, episode count, filesize) are `Int`.
* `error` values are modelled by the inductive `Err` below; `errors.Is`
  checks against a sentinel become equality with the matching constructor,
  and opaque provider/store failures carry a numeric code.
* The Ent-backed repositories are modelled as pure state transformers
  over explicit row lists; a failed transaction returns the unchanged
  state (rollback).
* The external upload provider is an oracle function argument.
-/

namespace Lession

/-- `uuid.UUID`, with `0` standing for `uuid.Nil`. -/
abbrev UUID := Nat

/-- `time.Time` instants, as abstract clock values. -/
abbrev Time := Nat

/-- core.AssetType. -/
inductive AssetType where
  | unspecified
  | video
  | audio
deriving DecidableEq, Repr

/-- core.AssetStatus. -/
inductive AssetStatus where
  | unspecified
  | pending
  | processing
  | ready
  | failed
  | deleted
deriving DecidableEq, Repr

/-- core.UploadProtocol. -/
inductive UploadProtocol where
  | unspecified
  | presignedPut
  | presignedPost
  | multipart
  | tus
deriving DecidableEq, Repr

/-- core.UploadStatus. -/
inductive UploadStatus where
  | unspecified
  | awaitingUpload
  | uploading
  | completed
  | expired
  | failed
deriving DecidableEq, Repr

/-- core.SeriesStatus. -/
inductive SeriesStatus where
  | unspecified
  | draft
  | published
  | archived
deriving DecidableEq, Repr

/-- core.EpisodeStatus. -/
inductive EpisodeStatus where
  | unspecified
  | draft
  | ready
  | published
  | archived
deriving DecidableEq, Repr

/-- core.MediaType. -/
inductive MediaType where
  | unspecified
  | video
  | audio
deriving DecidableEq, Repr

/-- core.TranscriptFormat. -/
inductive TranscriptFormat where
  | unspecified
  | plain
  | markdown
  | srt
  | json
deriving DecidableEq, Repr

/-- The error values the core produces (internal/core/errors.go), plus
opaque provider-side and store-side failures carrying a numeric code. -/
inductive Err where
  | notFound
  | invalidPageToken
  | validation
  | uploadIdentifierRequired
  | uploadInvalidState
  | providerFailure (code : Nat)
  | storeFailure (code : Nat)
deriving DecidableEq, Repr

/-- usecase.isNotFound: `errors.Is(err, core.ErrNotFound)`. -/
def isNotFound (e : Err) : Bool := e == Err.notFound

instance {ε α : Type} [DecidableEq ε] [DecidableEq α] : DecidableEq (Except ε α) := fun x y =>
  match x, y with
  | .ok a, .ok b =>
    if h : a = b then isTrue (by rw [h]) else isFalse (fun hh => by cases hh; exact h rfl)
  | .error a, .error b =>
    if h : a = b then isTrue (by rw [h]) else isFalse (fun hh => by cases hh; exact h rfl)
  | .ok _, .error _ => isFalse (fun hh => Except.noConfusion hh)
  | .error _, .ok _ => isFalse (fun hh => Except.noConfusion hh)

/-- core.UploadTarget. -/
structure UploadTarget where
  method : String
  url : String
  headers : List (String × String)
  formFields : List (String × String)
deriving DecidableEq, Repr

/-- core.Asset. -/
structure Asset where
  id : UUID
  assetKey : String
  type : AssetType
  status : AssetStatus
  originalFilename : String
  mimeType : String
  filesize : Int
  duration : Int
  playbackURL : String
  createdAt : Time
  updatedAt : Time
  readyAt : Option Time
deriving DecidableEq, Repr

/-- core.UploadSession. -/
structure UploadSession where
  id : UUID
  assetKey : String
  type : AssetType
  protocol : UploadProtocol
  status : UploadStatus
  target : UploadTarget
  originalFilename : String
  mimeType : String
  contentLength : Int
  expiresAt : Time
  createdAt : Time
  updatedAt : Time
deriving DecidableEq, Repr

/-- core.CreateUploadParams. -/
structure CreateUploadParams where
  type : AssetType
  originalFilename : String
  mimeType : String
  contentLength : Int
deriving DecidableEq, Repr

/-- core.CreateUploadResult. -/
structure CreateUploadResult where
  session : UploadSession
  asset : Asset
deriving DecidableEq, Repr

/-- core.UploadIdentifier. -/
structure UploadIdentifier where
  uploadID : UUID
  assetKey : String
deriving DecidableEq, Repr

/-- core.CompleteUploadParams. -/
structure CompleteUploadParams where
  identifier : UploadIdentifier
  checksum : String
  contentLength : Int
deriving DecidableEq, Repr

/-- core.CompleteUploadResult. -/
structure CompleteUploadResult where
  asset : Asset
  session : UploadSession
deriving DecidableEq, Repr

/-- core.ProviderCreateUploadParams. -/
structure ProviderCreateUploadParams where
  type : AssetType
  originalFilename : String
  mimeType : String
  contentLength : Int
deriving DecidableEq, Repr

/-- core.ProviderCreateUploadResult. -/
structure ProviderCreateUploadResult where
  assetKey : String
  protocol : UploadProtocol
  target : UploadTarget
  expiresAt : Time
  estimatedStatus : AssetStatus
deriving DecidableEq, Repr

/-- core.ProviderCompleteUploadParams. -/
structure ProviderCompleteUploadParams where
  assetKey : String
  checksum : String
  contentLength : Int
deriving DecidableEq, Repr

/-- core.ProviderCompleteUploadResult. -/
structure ProviderCompleteUploadResult where
  playbackURL : String
  duration : Int
deriving DecidableEq, Repr

/-- The rows held by the Ent store behind db.AssetRepository:
the `uploadsessions` and `assets` tables. -/
structure AssetRepoState where
  sessions : List UploadSession
  assets : List Asset
deriving DecidableEq, Repr

/-- db.AssetRepository.GetUploadSessionByID: primary-key lookup; a missing
row surfaces as core.ErrNotFound. -/
def getUploadSessionByID (st : AssetRepoState) (id : UUID) : Except Err UploadSession :=
  match st.sessions.find? (fun s => s.id == id) with
  | some s => .ok s
  | none => .error .notFound

/-- db.AssetRepository.GetUploadSessionByAssetKey: unique-key lookup; a
missing row surfaces as core.ErrNotFound. -/
def getUploadSessionByAssetKey (st : AssetRepoState) (key : String) : Except Err UploadSession :=
  match st.sessions.find? (fun s => s.assetKey == key) with
  | some s => .ok s
  | none => .error .notFound

/-- db.AssetRepository.GetAssetByKey: unique-key lookup; a missing row
surfaces as core.ErrNotFound. -/
def getAssetByKey (st : AssetRepoState) (key : String) : Except Err Asset :=
  match st.assets.find? (fun a => a.assetKey == key) with
  | some a => .ok a
  | none => .error .notFound

/-- db.AssetRepository.CreateUploadSession: INSERT of a full session row;
the primary-key and unique-asset-key constraints reject duplicates with an
opaque store failure. -/
def repoCreateUploadSession (st : AssetRepoState) (s : UploadSession) : Except Err AssetRepoState :=
  if st.sessions.any (fun row => row.id == s.id || row.assetKey == s.assetKey) then
    .error (.storeFailure 0)
  else
    .ok { st with sessions := st.sessions ++ [s] }

/-- db.AssetRepository.CreateAsset: INSERT of a full asset row; the
primary-key and unique-asset-key constraints reject duplicates with an
opaque store failure. -/
def repoCreateAsset (st : AssetRepoState) (a : Asset) : Except Err AssetRepoState :=
  if st.assets.any (fun row => row.id == a.id || row.assetKey == a.assetKey) then
    .error (.storeFailure 0)
  else
    .ok { st with assets := st.assets ++ [a] }

/-- db.AssetRepository.UpdateUploadSession: UpdateOneID setting status,
target, original filename, MIME type, content length, expiry and
updated-at (asset key, type and created-at are not updated); a missing row
surfaces as core.ErrNotFound. -/
def repoUpdateUploadSession (st : AssetRepoState) (s : UploadSession) : Except Err AssetRepoState :=
  if st.sessions.any (fun row => row.id == s.id) then
    .ok { st with sessions := st.sessions.map (fun row =>
      if row.id == s.id then
        { row with
          status := s.status
          target := s.target
          originalFilename := s.originalFilename
          mimeType := s.mimeType
          contentLength := s.contentLength
          expiresAt := s.expiresAt
          updatedAt := s.updatedAt }
      else row) }
  else .error .notFound

/-- db.AssetRepository.UpdateAsset: UpdateOneID setting status, original
filename, MIME type, filesize, duration, playback URL and ready-at (set or
cleared from the argument), and updated-at (asset key, type and created-at
are not updated); a missing row surfaces as core.ErrNotFound. -/
def repoUpdateAsset (st : AssetRepoState) (a : Asset) : Except Err AssetRepoState :=
  if st.assets.any (fun row => row.id == a.id) then
    .ok { st with assets := st.assets.map (fun row =>
      if row.id == a.id then
        { row with
          status := a.status
          originalFilename := a.originalFilename
          mimeType := a.mimeType
          filesize := a.filesize
          duration := a.duration
          playbackURL := a.playbackURL
          readyAt := a.readyAt
          updatedAt := a.updatedAt }
      else row) }
  else .error .notFound

/-- db.AssetRepository.DeleteAsset: hard delete removes the row and
returns no asset; soft delete marks status deleted and refreshes
updated-at; a missing row surfaces as core.ErrNotFound. -/
def repoDeleteAsset (now : Time) (st : AssetRepoState) (id : UUID) (hardDelete : Bool) :
    Except Err (Option Asset) × AssetRepoState :=
  if hardDelete then
    if st.assets.any (fun row => row.id == id) then
      (.ok none, { st with assets := st.assets.filter (fun row => !(row.id == id)) })
    else (.error .notFound, st)
  else
    match st.assets.find? (fun row => row.id == id) with
    | none => (.error .notFound, st)
    | some row =>
      let row' := { row with status := AssetStatus.deleted, updatedAt := now }
      (.ok (some row'), { st with assets := st.assets.map (fun r =>
        if r.id == id then { r with status := AssetStatus.deleted, updatedAt := now } else r) })

/-- The two session-read operations `AssetService.lookupUploadSession`
performs, abstracted so that lookups can be analysed against an arbitrary
repository (including ones returning opaque store failures). -/
structure SessionReads where
  byID : UUID → Except Err UploadSession
  byKey : String → Except Err UploadSession

/-- The session reads backed by the Ent store state. -/
def stateSessionReads (st : AssetRepoState) : SessionReads where
  byID := getUploadSessionByID st
  byKey := getUploadSessionByAssetKey st

/-- usecase.AssetService.lookupUploadSession: requires at least one
identifier; tries the ID lookup first, swallowing only not-found (and only
when falling through is possible), then the asset-key lookup. -/
def lookupUploadSession (r : SessionReads) (ident : UploadIdentifier) : Except Err UploadSession :=
  if ident.uploadID == 0 && ident.assetKey == "" then
    .error .uploadIdentifierRequired
  else
    let idStep : Option (Except Err UploadSession) :=
      if ident.uploadID != 0 then
        match r.byID ident.uploadID with
        | .ok s => some (.ok s)
        | .error e => if !(isNotFound e) then some (.error e) else none
      else none
    match idStep with
    | some res => res
    | none =>
      if ident.assetKey != "" then r.byKey ident.assetKey
      else .error .notFound

/-- usecase.AssetService.GetUploadSession: delegates to
lookupUploadSession. -/
def svcGetUploadSession (r : SessionReads) (ident : UploadIdentifier) : Except Err UploadSession :=
  lookupUploadSession r ident

/-- usecase.validateCreateUploadParams. -/
def validateCreateUploadParams (params : CreateUploadParams) : Except Err Unit :=
  if params.type == AssetType.unspecified then .error .validation
  else if params.originalFilename == "" then .error .validation
  else if params.mimeType == "" then .error .validation
  else if params.contentLength < 0 then .error .validation
  else .ok ()

/-- The observable outcome of one AssetService.CreateUpload call: the
returned value, the store state afterwards, whether the provider was
invoked, and how many persistence (INSERT) calls were issued. -/
structure CreateUploadOutcome where
  result : Except Err CreateUploadResult
  state : AssetRepoState
  providerCalled : Bool
  persistCalls : Nat
deriving Repr

/-- usecase.AssetService.CreateUpload. The provider is an oracle; the two
`uuid.New()` calls are the explicit `sessionID`/`assetID` arguments; `now`
is the injected clock reading. Persistence order follows the code: session
first, then asset, with no compensating rollback. -/
def createUpload
    (provider : ProviderCreateUploadParams → Except Err ProviderCreateUploadResult)
    (sessionID assetID : UUID) (now : Time)
    (st : AssetRepoState) (params : CreateUploadParams) : CreateUploadOutcome :=
  match validateCreateUploadParams params with
  | .error e => ⟨.error e, st, false, 0⟩
  | .ok _ =>
    match provider ⟨params.type, params.originalFilename, params.mimeType, params.contentLength⟩ with
    | .error e => ⟨.error e, st, true, 0⟩
    | .ok providerRes =>
      let session : UploadSession :=
        { id := sessionID
          assetKey := providerRes.assetKey
          type := params.type
          protocol := providerRes.protocol
          status := UploadStatus.awaitingUpload
          target := providerRes.target
          originalFilename := params.originalFilename
          mimeType := params.mimeType
          contentLength := params.contentLength
          expiresAt := providerRes.expiresAt
          createdAt := now
          updatedAt := now }
      let assetStatus :=
        if providerRes.estimatedStatus == AssetStatus.unspecified then AssetStatus.pending
        else providerRes.estimatedStatus
      let asset : Asset :=
        { id := assetID
          assetKey := providerRes.assetKey
          type := params.type
          status := assetStatus
          originalFilename := params.originalFilename
          mimeType := params.mimeType
          filesize := params.contentLength
          duration := 0
          playbackURL := ""
          createdAt := now
          updatedAt := now
          readyAt := none }
      match repoCreateUploadSession st session with
      | .error e => ⟨.error e, st, true, 1⟩
      | .ok st1 =>
        match repoCreateAsset st1 asset with
        | .error e => ⟨.error e, st1, true, 2⟩
        | .ok st2 => ⟨.ok ⟨session, asset⟩, st2, true, 2⟩

/-- The observable outcome of one AssetService.CompleteUpload call. -/
structure CompleteUploadOutcome where
  result : Except Err CompleteUploadResult
  state : AssetRepoState
  providerCalled : Bool
  persistCalls : Nat
deriving Repr

/-- usecase.AssetService.CompleteUpload: validates the content length,
resolves the session (same logic as GetUploadSession), rejects any status
other than awaiting-upload/uploading, asks the provider to finalise, marks
the session completed, then marks the paired asset ready. -/
def completeUpload
    (provider : ProviderCompleteUploadParams → Except Err ProviderCompleteUploadResult)
    (now : Time) (st : AssetRepoState) (params : CompleteUploadParams) : CompleteUploadOutcome :=
  if params.contentLength < 0 then
    ⟨.error .validation, st, false, 0⟩
  else
    match lookupUploadSession (stateSessionReads st) params.identifier with
    | .error e => ⟨.error e, st, false, 0⟩
    | .ok session =>
      if session.status == UploadStatus.awaitingUpload || session.status == UploadStatus.uploading then
        match provider ⟨session.assetKey, params.checksum, params.contentLength⟩ with
        | .error e => ⟨.error e, st, true, 0⟩
        | .ok providerRes =>
          let session' := { session with status := UploadStatus.completed, updatedAt := now }
          match repoUpdateUploadSession st session' with
          | .error e => ⟨.error e, st, true, 1⟩
          | .ok st1 =>
            match getAssetByKey st1 session'.assetKey with
            | .error e => ⟨.error e, st1, true, 1⟩
            | .ok asset =>
              let asset' :=
                { asset with
                  status := AssetStatus.ready
                  playbackURL := providerRes.playbackURL
                  duration := providerRes.duration
                  filesize := params.contentLength
                  updatedAt := now
                  readyAt := some now }
              match repoUpdateAsset st1 asset' with
              | .error e => ⟨.error e, st1, true, 2⟩
              | .ok st2 => ⟨.ok ⟨asset', session'⟩, st2, true, 2⟩
      else ⟨.error .uploadInvalidState, st, false, 0⟩

/-- usecase.AssetService.GetAssetByKey: rejects an empty key before the
repository is consulted (the Bool records whether the repository was
called). -/
def svcGetAssetByKey (st : AssetRepoState) (assetKey : String) : Except Err Asset × Bool :=
  if assetKey == "" then (.error .validation, false)
  else (getAssetByKey st assetKey, true)

/-- usecase.AssetService.UpdateAsset: requires a non-nil ID, refreshes
updated-at from the service clock, persists the caller-supplied record
verbatim and returns it. -/
def svcUpdateAsset (now : Time) (st : AssetRepoState) (asset : Asset) :
    Except Err Asset × AssetRepoState :=
  if asset.id == 0 then (.error .validation, st)
  else
    let asset' := { asset with updatedAt := now }
    match repoUpdateAsset st asset' with
    | .error e => (.error e, st)
    | .ok st' => (.ok asset', st')

/-- usecase.AssetService.DeleteAsset: requires a non-nil ID, then
delegates to the repository. -/
def svcDeleteAsset (now : Time) (st : AssetRepoState) (id : UUID) (hardDelete : Bool) :
    Except Err (Option Asset) × AssetRepoState :=
  if id == 0 then (.error .validation, st)
  else repoDeleteAsset now st id hardDelete

/-- core.MediaResource. -/
structure MediaResource where
  assetID : UUID
  type : MediaType
  playbackURL : String
  mimeType : String
deriving DecidableEq, Repr

/-- The zero value of core.MediaResource. -/
def MediaResource.zero : MediaResource := ⟨0, .unspecified, "", ""⟩

/-- core.Transcript. -/
structure Transcript where
  language : String
  format : TranscriptFormat
  content : String
deriving DecidableEq, Repr

/-- The zero value of core.Transcript. -/
def Transcript.zero : Transcript := ⟨"", .unspecified, ""⟩

/-- core.Episode (also the shape of an `episodes` table row). -/
structure Episode where
  id : UUID
  seriesID : UUID
  seq : Nat
  title : String
  description : String
  duration : Int
  status : EpisodeStatus
  resource : MediaResource
  transcript : Transcript
  createdAt : Time
  updatedAt : Time
  publishedAt : Option Time
  deletedAt : Option Time
deriving DecidableEq, Repr

/-- core.Series (also the shape of a `series` table row; for a table row
the `episodes` field is empty and episodes live in `SeriesDB.episodes`). -/
structure Series where
  id : UUID
  slug : String
  title : String
  summary : String
  language : String
  level : String
  tags : List String
  coverURL : String
  status : SeriesStatus
  episodeCount : Int
  createdAt : Time
  updatedAt : Time
  publishedAt : Option Time
  authorIDs : List String
  episodes : List Episode
deriving DecidableEq, Repr

/-- core.EpisodeDraft. -/
structure EpisodeDraft where
  seq : Nat
  title : String
  description : String
  duration : Int
  status : EpisodeStatus
  resource : Option MediaResource
  transcript : Option Transcript
deriving DecidableEq, Repr

/-- core.SeriesDraft. -/
structure SeriesDraft where
  slug : String
  title : String
  summary : String
  language : String
  level : String
  tags : List String
  coverURL : String
  status : SeriesStatus
  authorIDs : List String
  episodes : List EpisodeDraft
deriving DecidableEq, Repr

/-- core.CreateEpisodeParams. -/
structure CreateEpisodeParams where
  seriesID : UUID
  draft : EpisodeDraft
deriving DecidableEq, Repr

/-- The rows held by the Ent store behind db.SeriesRepository: the
`series` and `episodes` tables. -/
structure SeriesDB where
  series : List Series
  episodes : List Episode
deriving DecidableEq, Repr

/-- The COUNT query of db.recalcSeriesEpisodeCount: episodes of the given
series whose deleted-at is NULL. -/
def countNonDeleted (db : SeriesDB) (seriesID : UUID) : Nat :=
  (db.episodes.filter (fun e => e.seriesID == seriesID && e.deletedAt == none)).length

/-- db.recalcSeriesEpisodeCount: recount the series' non-deleted episodes
and store the count with a fresh updated-at on the series row; updating a
missing series surfaces as not-found. -/
def recalcSeriesEpisodeCount (now : Time) (db : SeriesDB) (seriesID : UUID) : Except Err SeriesDB :=
  let count : Int := countNonDeleted db seriesID
  if db.series.any (fun s => s.id == seriesID) then
    .ok { db with series := db.series.map (fun s =>
      if s.id == seriesID then { s with episodeCount := count, updatedAt := now } else s) }
  else .error .notFound

/-- db.saveEpisodeFromDomain / applyEpisodeCreate: INSERT of an episode
row whose series-id is forced to the supplied value; the primary-key and
the unique (series_id, seq) index reject duplicates with an opaque store
failure. -/
def repoInsertEpisode (db : SeriesDB) (seriesID : UUID) (episode : Episode) : Except Err SeriesDB :=
  let row := { episode with seriesID := seriesID }
  if db.episodes.any (fun e => e.id == row.id || (e.seriesID == seriesID && e.seq == row.seq)) then
    .error (.storeFailure 0)
  else
    .ok { db with episodes := db.episodes ++ [row] }

/-- The series INSERT of db.SeriesRepository.CreateSeries: the primary-key
and unique-slug constraints reject duplicates with an opaque store
failure; the `episodes` field is not part of the row. -/
def repoInsertSeriesRow (db : SeriesDB) (series : Series) : Except Err SeriesDB :=
  if db.series.any (fun s => s.id == series.id || s.slug == series.slug) then
    .error (.storeFailure 0)
  else
    .ok { db with series := db.series ++ [{ series with episodes := [] }] }

/-- The episode-batch loop of db.SeriesRepository.CreateSeries: insert
each episode under the new series' id, stopping at the first failure. -/
def repoInsertEpisodes (db : SeriesDB) (seriesID : UUID) : List Episode → Except Err SeriesDB
  | [] => .ok db
  | e :: rest =>
    match repoInsertEpisode db seriesID e with
    | .error err => .error err
    | .ok db1 => repoInsertEpisodes db1 seriesID rest

/-- db.SeriesRepository.CreateSeries: one transaction inserting the series
row, its episode batch, and the recomputed episode count; any failure
rolls the whole transaction back (the unchanged state is returned with the
error). -/
def repoCreateSeries (now : Time) (db : SeriesDB) (series : Series) : Except Err SeriesDB × SeriesDB :=
  match repoInsertSeriesRow db series with
  | .error e => (.error e, db)
  | .ok db1 =>
    match repoInsertEpisodes db1 series.id series.episodes with
    | .error e => (.error e, db)
    | .ok db2 =>
      match recalcSeriesEpisodeCount now db2 series.id with
      | .error e => (.error e, db)
      | .ok db3 => (.ok db3, db3)

/-- db.SeriesRepository.UpdateSeries: UpdateOneID storing the supplied
slug, title, summary, language, level, status, cover URL, episode count,
updated-at, author ids, tags and published-at (set or cleared) verbatim;
created-at is not updated; a missing row surfaces as not-found. -/
def repoUpdateSeries (db : SeriesDB) (series : Series) : Except Err SeriesDB :=
  if db.series.any (fun s => s.id == series.id) then
    .ok { db with series := db.series.map (fun s =>
      if s.id == series.id then
        { s with
          slug := series.slug
          title := series.title
          summary := series.summary
          language := series.language
          level := series.level
          status := series.status
          coverURL := series.coverURL
          episodeCount := series.episodeCount
          updatedAt := series.updatedAt
          authorIDs := series.authorIDs
          tags := series.tags
          publishedAt := series.publishedAt }
      else s) }
  else .error .notFound

/-- db.SeriesRepository.CreateEpisode: one transaction inserting the
episode (under its own series-id) and recomputing that series' episode
count; any failure rolls back. -/
def repoCreateEpisode (now : Time) (db : SeriesDB) (episode : Episode) : Except Err SeriesDB × SeriesDB :=
  match repoInsertEpisode db episode.seriesID episode with
  | .error e => (.error e, db)
  | .ok db1 =>
    match recalcSeriesEpisodeCount now db1 episode.seriesID with
    | .error e => (.error e, db)
    | .ok db2 => (.ok db2, db2)

/-- db.applyEpisodeUpdate: UpdateOneID storing the supplied seq, title,
description, duration, status, resource, transcript, updated-at,
published-at and deleted-at (each set or cleared) verbatim; the row's id,
series-id and created-at are not updated. -/
def applyEpisodeUpdate (row : Episode) (episode : Episode) : Episode :=
  { row with
    seq := episode.seq
    title := episode.title
    description := episode.description
    duration := episode.duration
    status := episode.status
    resource := episode.resource
    transcript := episode.transcript
    updatedAt := episode.updatedAt
    publishedAt := episode.publishedAt
    deletedAt := episode.deletedAt }

/-- db.SeriesRepository.UpdateEpisode: update the row (not transactional
with the recount), then recompute the episode count of the series named by
the ARGUMENT's series-id (skipped when that id is nil); a missing row
surfaces as not-found. On a recount failure the row update stays
persisted. -/
def repoUpdateEpisode (now : Time) (db : SeriesDB) (episode : Episode) : Except Err SeriesDB × SeriesDB :=
  if db.episodes.any (fun e => e.id == episode.id) then
    let db1 := { db with episodes := db.episodes.map (fun e =>
      if e.id == episode.id then applyEpisodeUpdate e episode else e) }
    if episode.seriesID == 0 then (.ok db1, db1)
    else
      match recalcSeriesEpisodeCount now db1 episode.seriesID with
      | .error e => (.error e, db1)
      | .ok db2 => (.ok db2, db2)
  else (.error .notFound, db)

/-- db.SeriesRepository.DeleteEpisode: one transaction that returns the
current state unchanged when the episode is already soft-deleted,
otherwise marks it archived with deleted-at/updated-at set to now and
recomputes the owning series' episode count; any failure rolls back. -/
def repoDeleteEpisode (now : Time) (db : SeriesDB) (id : UUID) : Except Err Episode × SeriesDB :=
  match db.episodes.find? (fun e => e.id == id) with
  | none => (.error .notFound, db)
  | some existing =>
    if existing.deletedAt != none then (.ok existing, db)
    else
      let updated := { existing with status := EpisodeStatus.archived, deletedAt := some now, updatedAt := now }
      let db1 := { db with episodes := db.episodes.map (fun e =>
        if e.id == id then { e with status := EpisodeStatus.archived, deletedAt := some now, updatedAt := now } else e) }
      match recalcSeriesEpisodeCount now db1 existing.seriesID with
      | .error e => (.error e, db)
      | .ok db2 => (.ok updated, db2)

/-- The ASCII part of Go's `unicode.IsSpace`, enough for page tokens. -/
def isSpaceChar (c : Char) : Bool := c == ' ' || c == '\t' || c == '\n' || c == '\r'

/-- Go's strings.TrimSpace (over the ASCII space set). -/
def trimSpace (s : String) : String :=
  ⟨((s.data.dropWhile isSpaceChar).reverse.dropWhile isSpaceChar).reverse⟩

/-- One run of decimal digits, as strconv.Atoi reads it: empty or any
non-digit character is a parse failure. -/
def parseNatDigits (l : List Char) : Option Nat :=
  if l.isEmpty then none
  else if l.all (fun c => c.isDigit) then
    some (l.foldl (fun acc c => acc * 10 + (c.toNat - 48)) 0)
  else none

/-- Go's strconv.Atoi: an optional sign followed by decimal digits. -/
def atoi (s : String) : Option Int :=
  match s.data with
  | '-' :: rest => (parseNatDigits rest).map (fun n => -(n : Int))
  | '+' :: rest => (parseNatDigits rest).map (fun n => (n : Int))
  | l => (parseNatDigits l).map (fun n => (n : Int))

/-- db.parseOffsetToken: blank tokens mean offset 0; anything else must
parse (by Atoi, on the untrimmed token) as a non-negative decimal
integer. -/
def parseOffsetToken (token : String) : Except Err Nat :=
  if trimSpace token == "" then .ok 0
  else
    match atoi token with
    | none => .error .invalidPageToken
    | some offset => if offset < 0 then .error .invalidPageToken else .ok offset.toNat

/-- The page-size defaulting of db.SeriesRepository.ListSeries: a
non-positive page size falls back to 20. -/
def effPageSize (pageSize : Int) : Int :=
  if pageSize ≤ 0 then 20 else pageSize

/-- db.SeriesRepository.ListSeries, after the WHERE clauses: `rows` is the
filtered result set already ordered by created-at descending; the query
fetches page-size-plus-one rows at the decoded offset and emits a
next-page token exactly when the extra row exists. -/
def listSeriesPage (rows : List Series) (pageSize : Int) (pageToken : String) :
    Except Err (List Series × String) :=
  match parseOffsetToken pageToken with
  | .error e => .error e
  | .ok offset =>
    let ps : Int := effPageSize pageSize
    let fetched := (rows.drop offset).take (ps.toNat + 1)
    if fetched.length > ps.toNat then
      .ok (fetched.take ps.toNat, toString (offset + ps.toNat))
    else
      .ok (fetched, "")

/-- usecase.SeriesService.buildEpisodeFromDraft: fresh identity (the
explicit `episodeID` models `uuid.New()`), status defaulting to draft,
zero-value resource/transcript when omitted, publish timestamp set when
the resolved status is published. -/
def buildEpisodeFromDraft (episodeID seriesID : UUID) (draft : EpisodeDraft) (now : Time) : Episode :=
  let status := if draft.status == EpisodeStatus.unspecified then EpisodeStatus.draft else draft.status
  let resource := match draft.resource with
    | some r => r
    | none => MediaResource.zero
  let transcript := match draft.transcript with
    | some t => t
    | none => Transcript.zero
  { id := episodeID
    seriesID := seriesID
    seq := draft.seq
    title := draft.title
    description := draft.description
    duration := draft.duration
    status := status
    resource := resource
    transcript := transcript
    createdAt := now
    updatedAt := now
    publishedAt := if status == EpisodeStatus.published then some now else none
    deletedAt := none }

/-- The episode loop of usecase.SeriesService.CreateSeries: walk the
drafts keeping the set of seen seq values, failing with a validation error
at the first duplicate; `episodeIDs` supplies the per-draft `uuid.New()`
results by position. -/
def buildSeriesEpisodes (episodeIDs : Nat → UUID) (seriesID : UUID) (now : Time) :
    Nat → List Nat → List EpisodeDraft → Except Err (List Episode)
  | _, _, [] => .ok []
  | idx, seqSeen, draft :: rest =>
    if seqSeen.contains draft.seq then .error .validation
    else
      match buildSeriesEpisodes episodeIDs seriesID now (idx + 1) (draft.seq :: seqSeen) rest with
      | .error e => .error e
      | .ok eps => .ok (buildEpisodeFromDraft (episodeIDs idx) seriesID draft now :: eps)

/-- usecase.SeriesService.CreateSeries: defaulting, publish timestamping,
whole-batch duplicate-seq validation, then a single repository call. The
repository is an oracle; the second component records the series value
handed to it (none = the repository was never invoked). -/
def svcCreateSeries (repo : Series → Except Err Series)
    (seriesID : UUID) (episodeIDs : Nat → UUID) (now : Time) (draft : SeriesDraft) :
    Except Err Series × Option Series :=
  let status := if draft.status == SeriesStatus.unspecified then SeriesStatus.draft else draft.status
  let base : Series :=
    { id := seriesID
      slug := draft.slug
      title := draft.title
      summary := draft.summary
      language := draft.language
      level := draft.level
      tags := draft.tags
      coverURL := draft.coverURL
      status := status
      episodeCount := 0
      createdAt := now
      updatedAt := now
      publishedAt := if status == SeriesStatus.published then some now else none
      authorIDs := draft.authorIDs
      episodes := [] }
  if draft.episodes.length > 0 then
    match buildSeriesEpisodes episodeIDs seriesID now 0 [] draft.episodes with
    | .error e => (.error e, none)
    | .ok eps =>
      let series := { base with episodes := eps, episodeCount := (eps.length : Int) }
      (repo series, some series)
  else
    (repo base, some base)

/-- usecase.SeriesService.GetSeries: rejects the nil ID before the
repository is consulted (the Bool records whether it was called). -/
def svcGetSeries (repo : UUID → Except Err Series) (id : UUID) : Except Err Series × Bool :=
  if id == 0 then (.error .validation, false)
  else (repo id, true)

/-- The validation and timestamping half of usecase.SeriesService.
UpdateSeries: requires a non-nil ID and a specified status, refreshes
updated-at, and sets the publish timestamp when publishing without one;
the result is the series value handed to the repository. -/
def updateSeriesPrepared (now : Time) (series : Series) : Except Err Series :=
  if series.id == 0 then .error .validation
  else if series.status == SeriesStatus.unspecified then .error .validation
  else
    let s1 := { series with updatedAt := now }
    if s1.status == SeriesStatus.published && s1.publishedAt == none then
      .ok { s1 with publishedAt := some s1.updatedAt }
    else .ok s1

/-- usecase.SeriesService.UpdateSeries: prepare, then one repository call. -/
def svcUpdateSeries (repo : Series → Except Err Series) (now : Time) (series : Series) :
    Except Err Series :=
  match updateSeriesPrepared now series with
  | .error e => .error e
  | .ok s => repo s

/-- usecase.SeriesService.CreateEpisode: requires a non-nil series id,
builds the episode via the shared construction rule, then one repository
call; the second component records the episode handed to the repository. -/
def svcCreateEpisode (repo : Episode → Except Err Episode)
    (episodeID : UUID) (now : Time) (params : CreateEpisodeParams) :
    Except Err Episode × Option Episode :=
  if params.seriesID == 0 then (.error .validation, none)
  else
    let episode := buildEpisodeFromDraft episodeID params.seriesID params.draft now
    (repo episode, some episode)

/-- usecase.SeriesService.GetEpisode: rejects the nil ID before the
repository is consulted. -/
def svcGetEpisode (repo : UUID → Except Err Episode) (id : UUID) : Except Err Episode × Bool :=
  if id == 0 then (.error .validation, false)
  else (repo id, true)

/-- The validation and timestamping half of usecase.SeriesService.
UpdateEpisode: requires non-nil episode and series ids and a specified
status, refreshes updated-at, and sets the publish timestamp when
publishing without one; the result is the episode value handed to the
repository. -/
def updateEpisodePrepared (now : Time) (episode : Episode) : Except Err Episode :=
  if episode.id == 0 then .error .validation
  else if episode.seriesID == 0 then .error .validation
  else if episode.status == EpisodeStatus.unspecified then .error .validation
  else
    let e1 := { episode with updatedAt := now }
    if e1.status == EpisodeStatus.published && e1.publishedAt == none then
      .ok { e1 with publishedAt := some e1.updatedAt }
    else .ok e1

/-- usecase.SeriesService.UpdateEpisode: prepare, then one repository
call. -/
def svcUpdateEpisode (repo : Episode → Except Err Episode) (now : Time) (episode : Episode) :
    Except Err Episode :=
  match updateEpisodePrepared now episode with
  | .error e => .error e
  | .ok ep => repo ep

/-- usecase.SeriesService.DeleteEpisode: rejects the nil ID before the
repository is consulted. -/
def svcDeleteEpisode (repo : UUID → Except Err Episode) (id : UUID) : Except Err Episode × Bool :=
  if id == 0 then (.error .validation, false)
  else (repo id, true)

/-- The `EpisodeCount` consistency invariant of the spec: every series
row's stored count equals the number of its non-soft-deleted episode
rows. -/
def seriesCountInv (db : SeriesDB) : Prop :=
  ∀ s ∈ db.series, s.episodeCount = (countNonDeleted db s.id : Int)

instance (db : SeriesDB) : Decidable (seriesCountInv db) := by
  unfold seriesCountInv; infer_instance

/-- The ids of the assets whose stored status is currently `ready`. -/
def readyIDs (assets : List Asset) : List UUID :=
  (assets.filter (fun a => a.status == AssetStatus.ready)).map (fun a => a.id)

/-- The states reachable through the four mutating asset-service
operations, starting from an empty store. The second component is the
ghost history: after every step it accumulates the ids of the assets
whose status is `ready`, so `id ∈ ever` says the asset's status has been
`ready` in at least one reachable snapshot. The `uuid.New()` results are
required to be fresh with respect to the history (collision freedom of
generated UUIDs). -/
inductive AssetReach : AssetRepoState → List UUID → Prop where
  | init : AssetReach ⟨[], []⟩ []
  | stepCreateUpload {st ev}
      (provider : ProviderCreateUploadParams → Except Err ProviderCreateUploadResult)
      (sessionID assetID : UUID) (now : Time) (params : CreateUploadParams)
      (hfresh : assetID ∉ ev) (hprev : AssetReach st ev) :
      AssetReach (createUpload provider sessionID assetID now st params).state
        (ev ++ readyIDs (createUpload provider sessionID assetID now st params).state.assets)
  | stepCompleteUpload {st ev}
      (provider : ProviderCompleteUploadParams → Except Err ProviderCompleteUploadResult)
      (now : Time) (params : CompleteUploadParams) (hprev : AssetReach st ev) :
      AssetReach (completeUpload provider now st params).state
        (ev ++ readyIDs (completeUpload provider now st params).state.assets)
  | stepUpdateAsset {st ev} (now : Time) (asset : Asset) (hprev : AssetReach st ev) :
      AssetReach (svcUpdateAsset now st asset).2
        (ev ++ readyIDs (svcUpdateAsset now st asset).2.assets)
  | stepDeleteAsset {st ev} (now : Time) (id : UUID) (hardDelete : Bool)
      (hprev : AssetReach st ev) :
      AssetReach (svcDeleteAsset now st id hardDelete).2
        (ev ++ readyIDs (svcDeleteAsset now st id hardDelete).2.assets)

/-- The states reachable when UpdateAsset is never used and the provider
never estimates a freshly-created asset as already `ready`; the amended
ReadyAt invariant is stated against these. -/
inductive AssetReachSafe : AssetRepoState → List UUID → Prop where
  | init : AssetReachSafe ⟨[], []⟩ []
  | stepCreateUpload {st ev}
      (provider : ProviderCreateUploadParams → Except Err ProviderCreateUploadResult)
      (sessionID assetID : UUID) (now : Time) (params : CreateUploadParams)
      (hfresh : assetID ∉ ev)
      (hest : ∀ r, provider ⟨params.type, params.originalFilename, params.mimeType,
        params.contentLength⟩ = .ok r → r.estimatedStatus ≠ AssetStatus.ready)
      (hprev : AssetReachSafe st ev) :
      AssetReachSafe (createUpload provider sessionID assetID now st params).state
        (ev ++ readyIDs (createUpload provider sessionID assetID now st params).state.assets)
  | stepCompleteUpload {st ev}
      (provider : ProviderCompleteUploadParams → Except Err ProviderCompleteUploadResult)
      (now : Time) (params : CompleteUploadParams) (hprev : AssetReachSafe st ev) :
      AssetReachSafe (completeUpload provider now st params).state
        (ev ++ readyIDs (completeUpload provider now st params).state.assets)
  | stepDeleteAsset {st ev} (now : Time) (id : UUID) (hardDelete : Bool)
      (hprev : AssetReachSafe st ev) :
      AssetReachSafe (svcDeleteAsset now st id hardDelete).2
        (ev ++ readyIDs (svcDeleteAsset now st id hardDelete).2.assets)

/-- The spec's ReadyAt invariant, against the ghost history: ReadyAt is
set exactly for the assets whose status has reached `ready` at least
once. -/
def readyAtMatchesHistory (assets : List Asset) (ever : List UUID) : Prop :=
  ∀ a ∈ assets, a.readyAt.isSome ↔ a.id ∈ ever

instance (assets : List Asset) (ever : List UUID) :
    Decidable (readyAtMatchesHistory assets ever) := by
  unfold readyAtMatchesHistory; infer_instance

/-- The induction-strengthened form of the ReadyAt invariant: the history
equivalence plus "a currently-ready asset has ReadyAt set". -/
def readyEverInv (assets : List Asset) (ever : List UUID) : Prop :=
  ∀ a ∈ assets, (a.readyAt.isSome ↔ a.id ∈ ever) ∧
    (a.status = AssetStatus.ready → a.readyAt.isSome)

/-! Concrete fixtures used by witness and counterexample theorems. -/

/-- Fixture: an upload target. -/
def fixTarget : UploadTarget := ⟨"PUT", "https://upload.example/k1", [], []⟩

/-- Fixture: an upload session row. -/
def fixSession (id : UUID) (key : String) (status : UploadStatus) : UploadSession :=
  ⟨id, key, .video, .presignedPut, status, fixTarget, "file.mp4", "video/mp4", 5, 100, 0, 0⟩

/-- Fixture: an asset row. -/
def fixAsset (id : UUID) (key : String) (status : AssetStatus) (readyAt : Option Time) : Asset :=
  ⟨id, key, .video, status, "file.mp4", "video/mp4", 5, 0, "", 0, 0, readyAt⟩

/-- Fixture: a provider that always issues asset key "k1" with a pending
estimate. -/
def fixProviderCreate : ProviderCreateUploadParams → Except Err ProviderCreateUploadResult :=
  fun _ => .ok ⟨"k1", .presignedPut, fixTarget, 100, .pending⟩

/-- Fixture: a provider finalisation producing a fixed playback URL. -/
def fixProviderComplete : ProviderCompleteUploadParams → Except Err ProviderCompleteUploadResult :=
  fun _ => .ok ⟨"https://playback.example/k1/master.m3u8", 60⟩

/-- Fixture: a series row. -/
def fixSeries (id : UUID) (slug : String) (count : Int) : Series :=
  ⟨id, slug, "T", "", "", "", [], "", .draft, count, 0, 0, none, [], []⟩

/-- Fixture: an episode row. -/
def fixEpisode (id seriesID : UUID) (seq : Nat) (deletedAt : Option Time) : Episode :=
  ⟨id, seriesID, seq, "E", "", 0, .draft, MediaResource.zero, Transcript.zero, 0, 0, none, deletedAt⟩

/-- Fixture: an episode draft. -/
def fixDraftEpisode (seq : Nat) : EpisodeDraft := ⟨seq, "E", "", 0, .unspecified, none, none⟩

/-- Fixture for the EpisodeCount counterexample: one series with no
episodes and a correct stored count. -/
def c5db : SeriesDB := ⟨[fixSeries 1 "a" 0], []⟩

/-- Fixture: the same series as held in `c5db` but carrying a stale
episode count of 5, as a caller may supply it to UpdateSeries. -/
def c5series : Series := fixSeries 1 "a" 5

/-- Fixture: what the series service hands the repository for `c5series`
at clock value 7. -/
def c5prepared : Series := { c5series with updatedAt := 7 }

/-- Fixture: the store after UpdateSeries persists `c5prepared`. -/
def c5dbAfter : SeriesDB := ⟨[{ fixSeries 1 "a" 5 with updatedAt := 7 }], []⟩

/-! Theorems. -/

/-- C10: every bare-identifier read or delete of the two services rejects
the zero-value identifier with a Validation error before any repository
call: GetSeries, GetEpisode and DeleteEpisode fail on the nil UUID, and
GetAssetByKey fails on the empty asset key, in each case with the
persistence collaborator never invoked (the Bool component records
whether it was called). -/
theorem c10_zero_identifier_rejected :
    (∀ repo : UUID → Except Err Series, svcGetSeries repo 0 = (.error .validation, false)) ∧
    (∀ repo : UUID → Except Err Episode, svcGetEpisode repo 0 = (.error .validation, false)) ∧
    (∀ repo : UUID → Except Err Episode, svcDeleteEpisode repo 0 = (.error .validation, false)) ∧
    (∀ st : AssetRepoState, svcGetAssetByKey st "" = (.error .validation, false)) :=
  ⟨fun _ => rfl, fun _ => rfl, fun _ => rfl, fun _ => rfl⟩

/-- C7: for every UpdateSeries or UpdateEpisode call with status
published: a nil PublishedAt is set to the update-time clock value, an
already-set PublishedAt is left unchanged (so repeating the same
published-status update does not change it), and UpdatedAt is refreshed
to the clock value on every such update. -/
theorem c7_publish_timestamp_idempotent :
    (∀ (now : Time) (series : Series), series.id ≠ 0 →
      series.status = SeriesStatus.published →
      ∃ s', updateSeriesPrepared now series = .ok s' ∧
        s'.updatedAt = now ∧
        (series.publishedAt = none → s'.publishedAt = some now) ∧
        (∀ t, series.publishedAt = some t → s'.publishedAt = some t) ∧
        ∀ now2, ∃ s'', updateSeriesPrepared now2 s' = .ok s'' ∧
          s''.publishedAt = s'.publishedAt ∧ s''.updatedAt = now2) ∧
    (∀ (now : Time) (episode : Episode), episode.id ≠ 0 → episode.seriesID ≠ 0 →
      episode.status = EpisodeStatus.published →
      ∃ e', updateEpisodePrepared now episode = .ok e' ∧
        e'.updatedAt = now ∧
        (episode.publishedAt = none → e'.publishedAt = some now) ∧
        (∀ t, episode.publishedAt = some t → e'.publishedAt = some t) ∧
        ∀ now2, ∃ e'', updateEpisodePrepared now2 e' = .ok e'' ∧
          e''.publishedAt = e'.publishedAt ∧ e''.updatedAt = now2) := by
  constructor
  · intro now series hid hpub
    rcases hpa : series.publishedAt with _ | t
    · refine ⟨{ series with updatedAt := now, publishedAt := some now }, ?_, rfl, fun _ => rfl,
        fun t ht => by simp [hpa] at ht, fun now2 => ?_⟩
      · simp [updateSeriesPrepared, hid, hpub, hpa]
      · exact ⟨{ series with updatedAt := now2, publishedAt := some now },
          by simp [updateSeriesPrepared, hid, hpub], rfl, rfl⟩
    · refine ⟨{ series with updatedAt := now }, ?_, rfl, fun h => by simp [hpa] at h,
        fun t' ht' => by simp [hpa] at ht'; simp [hpa, ht'], fun now2 => ?_⟩
      · simp [updateSeriesPrepared, hid, hpub, hpa]
      · exact ⟨{ series with updatedAt := now2 },
          by simp [updateSeriesPrepared, hid, hpub, hpa], rfl, rfl⟩
  · intro now episode hid hsid hpub
    rcases hpa : episode.publishedAt with _ | t
    · refine ⟨{ episode with updatedAt := now, publishedAt := some now }, ?_, rfl, fun _ => rfl,
        fun t ht => by simp [hpa] at ht, fun now2 => ?_⟩
      · simp [updateEpisodePrepared, hid, hsid, hpub, hpa]
      · exact ⟨{ episode with updatedAt := now2, publishedAt := some now },
          by simp [updateEpisodePrepared, hid, hsid, hpub], rfl, rfl⟩
    · refine ⟨{ episode with updatedAt := now }, ?_, rfl, fun h => by simp [hpa] at h,
        fun t' ht' => by simp [hpa] at ht'; simp [hpa, ht'], fun now2 => ?_⟩
      · simp [updateEpisodePrepared, hid, hsid, hpub, hpa]
      · exact ⟨{ episode with updatedAt := now2 },
          by simp [updateEpisodePrepared, hid, hsid, hpub, hpa], rfl, rfl⟩

/-- C7 witness: the series/episode publish-timestamp behavior at a
concrete input. -/
theorem c7_publish_timestamp_idempotent_witness :
    ∃ s', updateSeriesPrepared 7 { fixSeries 1 "a" 0 with status := .published } = .ok s' ∧
      s'.updatedAt = 7 ∧
      ({ fixSeries 1 "a" 0 with status := SeriesStatus.published }.publishedAt = none →
        s'.publishedAt = some 7) ∧
      (∀ t, { fixSeries 1 "a" 0 with status := SeriesStatus.published }.publishedAt = some t →
        s'.publishedAt = some t) ∧
      ∀ now2, ∃ s'', updateSeriesPrepared now2 s' = .ok s'' ∧
        s''.publishedAt = s'.publishedAt ∧ s''.updatedAt = now2 :=
  c7_publish_timestamp_idempotent.1 7 { fixSeries 1 "a" 0 with status := .published }
    (by decide) (by decide)

/-- C5 counterexample: the claim includes UpdateSeries, but
db.SeriesRepository.UpdateSeries persists the caller-supplied
EpisodeCount verbatim: starting from a store satisfying the invariant,
an UpdateSeries call carrying a stale count of 5 (passed through
unchanged by the series service) leaves a series whose stored
EpisodeCount is 5 while it has no episodes at all. -/
theorem c5_invariant_counterexample :
    seriesCountInv c5db ∧
    updateSeriesPrepared 7 c5series = .ok c5prepared ∧
    repoUpdateSeries c5db c5prepared = .ok c5dbAfter ∧
    ¬ seriesCountInv c5dbAfter := by
  decide

/-- C6: GetUploadSession (and CompleteUpload, which resolves through the
same lookup) fails with UploadIdentifierRequired when neither identifier
is supplied; an ID lookup is tried first; a not-found on the ID lookup
falls through to the asset-key lookup only when an asset key was also
supplied, and otherwise the not-found is returned; with only an asset key
the key lookup is used; any non-not-found error of the ID lookup is
propagated immediately; and a lookup failure makes CompleteUpload fail
with the same error, leaving the store untouched. -/
theorem c6_upload_session_resolution :
    (∀ r : SessionReads, svcGetUploadSession r ⟨0, ""⟩ = .error .uploadIdentifierRequired) ∧
    (∀ (r : SessionReads) (ident : UploadIdentifier) (s : UploadSession),
      ident.uploadID ≠ 0 → r.byID ident.uploadID = .ok s →
      svcGetUploadSession r ident = .ok s) ∧
    (∀ (r : SessionReads) (ident : UploadIdentifier),
      ident.uploadID ≠ 0 → r.byID ident.uploadID = .error .notFound → ident.assetKey ≠ "" →
      svcGetUploadSession r ident = r.byKey ident.assetKey) ∧
    (∀ (r : SessionReads) (ident : UploadIdentifier),
      ident.uploadID ≠ 0 → r.byID ident.uploadID = .error .notFound → ident.assetKey = "" →
      svcGetUploadSession r ident = .error .notFound) ∧
    (∀ (r : SessionReads) (ident : UploadIdentifier) (e : Err),
      ident.uploadID ≠ 0 → r.byID ident.uploadID = .error e → e ≠ .notFound →
      svcGetUploadSession r ident = .error e) ∧
    (∀ (r : SessionReads) (ident : UploadIdentifier),
      ident.uploadID = 0 → ident.assetKey ≠ "" →
      svcGetUploadSession r ident = r.byKey ident.assetKey) ∧
    (∀ provider (now : Time) (st : AssetRepoState) (params : CompleteUploadParams) (e : Err),
      0 ≤ params.contentLength →
      svcGetUploadSession (stateSessionReads st) params.identifier = .error e →
      completeUpload provider now st params = ⟨.error e, st, false, 0⟩) := by
  refine ⟨fun r => rfl, ?_, ?_, ?_, ?_, ?_, ?_⟩
  · intro r ident s hid hok
    simp [svcGetUploadSession, lookupUploadSession, hid, hok]
  · intro r ident hid hnf hkey
    simp [svcGetUploadSession, lookupUploadSession, hid, hnf, hkey, isNotFound]
  · intro r ident hid hnf hkey
    simp [svcGetUploadSession, lookupUploadSession, hid, hnf, hkey, isNotFound]
  · intro r ident e hid herr hne
    simp [svcGetUploadSession, lookupUploadSession, hid, herr, isNotFound, hne]
  · intro r ident hid hkey
    simp [svcGetUploadSession, lookupUploadSession, hid, hkey]
  · intro provider now st params e hlen herr
    have hlt : ¬ params.contentLength < 0 := not_lt.mpr hlen
    simp only [svcGetUploadSession] at herr
    simp [completeUpload, hlt, herr]

/-- C6 witness: the resolution rules at concrete inputs. -/
theorem c6_upload_session_resolution_witness :
    svcGetUploadSession (stateSessionReads ⟨[fixSession 3 "k1" .awaitingUpload], []⟩)
      ⟨3, ""⟩ = .ok (fixSession 3 "k1" .awaitingUpload) :=
  c6_upload_session_resolution.2.1 (stateSessionReads ⟨[fixSession 3 "k1" .awaitingUpload], []⟩)
    ⟨3, ""⟩ (fixSession 3 "k1" .awaitingUpload) (by decide) (by decide)

lemma buildSeriesEpisodes_ok (episodeIDs : Nat → UUID) (sid : UUID) (now : Time) :
    ∀ (drafts : List EpisodeDraft) (idx : Nat) (seen : List Nat),
      (drafts.map (fun d => d.seq)).Nodup →
      (∀ d ∈ drafts, seen.contains d.seq = false) →
      ∃ eps, buildSeriesEpisodes episodeIDs sid now idx seen drafts = .ok eps ∧
        eps.length = drafts.length := by
  intro drafts
  induction drafts with
  | nil => intro idx seen _ _; exact ⟨[], rfl, rfl⟩
  | cons d rest ih =>
    intro idx seen hnd hseen
    have hc : seen.contains d.seq = false := hseen d (List.mem_cons_self d rest)
    rw [List.map_cons, List.nodup_cons] at hnd
    have hrest : ∀ d' ∈ rest, (d.seq :: seen).contains d'.seq = false := by
      intro d' hd'
      have h1 : d'.seq ≠ d.seq := by
        intro he
        exact hnd.1 (he ▸ List.mem_map_of_mem (fun x => x.seq) hd')
      have h2 : seen.contains d'.seq = false := hseen d' (List.mem_cons_of_mem d hd')
      simpa [List.contains, List.elem_cons, h1] using h2
    obtain ⟨eps, heps, hlen⟩ := ih (idx + 1) (d.seq :: seen) hnd.2 hrest
    have hcm : d.seq ∉ seen := by simpa using hc
    refine ⟨buildEpisodeFromDraft (episodeIDs idx) sid d now :: eps, ?_, by simp [hlen]⟩
    simp [buildSeriesEpisodes, hcm, heps]

lemma buildSeriesEpisodes_err (episodeIDs : Nat → UUID) (sid : UUID) (now : Time) :
    ∀ (drafts : List EpisodeDraft) (idx : Nat) (seen : List Nat),
      (¬ (drafts.map (fun d => d.seq)).Nodup ∨ ∃ d ∈ drafts, seen.contains d.seq = true) →
      buildSeriesEpisodes episodeIDs sid now idx seen drafts = .error .validation := by
  intro drafts
  induction drafts with
  | nil =>
    intro idx seen h
    rcases h with h | ⟨d, hd, _⟩
    · exact absurd List.nodup_nil h
    · exact absurd hd (List.not_mem_nil d)
  | cons d rest ih =>
    intro idx seen h
    by_cases hc : seen.contains d.seq = true
    · have hcm : d.seq ∈ seen := by simpa using hc
      simp [buildSeriesEpisodes, hcm]
    · have hc' : seen.contains d.seq = false := by simpa using hc
      have hrec : ¬ (rest.map (fun x => x.seq)).Nodup ∨
          ∃ d' ∈ rest, (d.seq :: seen).contains d'.seq = true := by
        rcases h with h | ⟨d0, hd0, hd0c⟩
        · rw [List.map_cons, List.nodup_cons] at h
          rcases not_and_or.mp h with h | h
          · push_neg at h
            obtain ⟨d', hd', he⟩ := List.mem_map.mp h
            exact Or.inr ⟨d', hd', by simp [List.contains, List.elem_cons, he]⟩
          · exact Or.inl h
        · rcases List.mem_cons.mp hd0 with rfl | hd0
          · exact absurd hd0c hc
          · exact Or.inr ⟨d0, hd0, by simp [List.contains, List.elem_cons] at hd0c ⊢; right; exact hd0c⟩
      simp [buildSeriesEpisodes, hc', ih (idx + 1) (d.seq :: seen) hrec]

/-- C3: a series draft containing two episode drafts with the same Seq
fails CreateSeries with a Validation error and the repository is never
invoked; when all Seq values are pairwise distinct the whole batch is
handed to the repository in a single call (one series value carrying as
many episodes as the draft had). -/
theorem c3_duplicate_seq_rejected :
    ∀ (repo : Series → Except Err Series) (seriesID : UUID) (episodeIDs : Nat → UUID)
      (now : Time) (draft : SeriesDraft),
      (¬ (draft.episodes.map (fun d => d.seq)).Nodup →
        svcCreateSeries repo seriesID episodeIDs now draft = (.error .validation, none)) ∧
      ((draft.episodes.map (fun d => d.seq)).Nodup →
        ∃ series, (svcCreateSeries repo seriesID episodeIDs now draft).2 = some series ∧
          (svcCreateSeries repo seriesID episodeIDs now draft).1 = repo series ∧
          series.episodes.length = draft.episodes.length) := by
  intro repo seriesID episodeIDs now draft
  constructor
  · intro hdup
    have hne : draft.episodes ≠ [] := by
      intro h; rw [h] at hdup; exact hdup List.nodup_nil
    have hlen : draft.episodes.length > 0 := List.length_pos.mpr hne
    have herr := buildSeriesEpisodes_err episodeIDs seriesID now draft.episodes 0 []
      (Or.inl hdup)
    simp [svcCreateSeries, hlen, herr]
  · intro hnd
    by_cases hlen : draft.episodes.length > 0
    · obtain ⟨eps, heps, hl⟩ := buildSeriesEpisodes_ok episodeIDs seriesID now
        draft.episodes 0 [] hnd (fun d _ => rfl)
      simp only [svcCreateSeries, if_pos hlen, heps]
      exact ⟨_, rfl, rfl, hl⟩
    · simp only [svcCreateSeries, if_neg hlen]
      refine ⟨_, rfl, rfl, ?_⟩
      simp only [List.length_nil]
      omega

/-- C3 witness: a concrete duplicate batch is rejected without touching
the repository, and a concrete distinct batch reaches it whole. -/
theorem c3_duplicate_seq_rejected_witness :
    (¬ (([fixDraftEpisode 1, fixDraftEpisode 1].map (fun d => d.seq)).Nodup) →
      svcCreateSeries (fun s => .ok s) 9 (fun _ => 0) 0
        { slug := "slug", title := "title", summary := "", language := "", level := "",
          tags := [], coverURL := "", status := .unspecified, authorIDs := [],
          episodes := [fixDraftEpisode 1, fixDraftEpisode 1] } = (.error .validation, none)) ∧
    ¬ (([fixDraftEpisode 1, fixDraftEpisode 1].map (fun d => d.seq)).Nodup) := by
  refine ⟨?_, by decide⟩
  intro h
  exact (c3_duplicate_seq_rejected (fun s => .ok s) 9 (fun _ => 0) 0
    { slug := "slug", title := "title", summary := "", language := "", level := "",
      tags := [], coverURL := "", status := .unspecified, authorIDs := [],
      episodes := [fixDraftEpisode 1, fixDraftEpisode 1] }).1 h

lemma toDigitsCore_len_ge (b : Nat) : ∀ (f n : Nat) (l : List Char),
    l.length ≤ (Nat.toDigitsCore b f n l).length := by
  intro f
  induction f with
  | zero => intro n l; simp [Nat.toDigitsCore]
  | succ f ih =>
    intro n l
    simp only [Nat.toDigitsCore]
    split
    · simp
    · calc l.length ≤ (Nat.digitChar (n % b) :: l).length := by simp
        _ ≤ _ := ih _ _

lemma toString_nat_ne_empty (n : Nat) : toString n ≠ "" := by
  have h1 : 1 ≤ (Nat.toDigits 10 n).length := by
    simp only [Nat.toDigits, Nat.toDigitsCore]
    split
    · simp
    · calc 1 = ([Nat.digitChar (n % 10)] : List Char).length := by simp
        _ ≤ _ := toDigitsCore_len_ge 10 n (n / 10) [Nat.digitChar (n % 10)]
  intro h
  have h2 : (Nat.toDigits 10 n) = [] := by
    have := congrArg String.data h
    simpa [toString, Nat.repr, List.asString] using this
  rw [h2] at h1
  simp at h1

/-- C9: ListSeries replaces a non-positive page size by 20; the
repository fetches page-size-plus-one rows at the token's decimal offset,
returns at most page-size rows, and emits the decimal token
offset-plus-page-size (always non-empty) exactly when the extra row
exists; listing 2 matching rows with page size 1 yields one row and token
"1", whose follow-up call yields the remaining row and an empty token. -/
theorem c9_list_series_pagination :
    (∀ (rows : List Series) (pageSize : Int) (tok : String), pageSize ≤ 0 →
      listSeriesPage rows pageSize tok = listSeriesPage rows 20 tok) ∧
    (∀ (rows : List Series) (pageSize : Int) (tok : String) rs tok',
      listSeriesPage rows pageSize tok = .ok (rs, tok') →
      rs.length ≤ (effPageSize pageSize).toNat) ∧
    (∀ (rows : List Series) (pageSize : Int) (tok : String) (offset : Nat),
      parseOffsetToken tok = .ok offset →
      ((rows.drop offset).length > (effPageSize pageSize).toNat →
        listSeriesPage rows pageSize tok =
          .ok ((rows.drop offset).take (effPageSize pageSize).toNat,
            toString (offset + (effPageSize pageSize).toNat)) ∧
        toString (offset + (effPageSize pageSize).toNat) ≠ "") ∧
      ((rows.drop offset).length ≤ (effPageSize pageSize).toNat →
        listSeriesPage rows pageSize tok = .ok (rows.drop offset, ""))) ∧
    (listSeriesPage [fixSeries 1 "a" 0, fixSeries 2 "b" 0] 1 "" =
      .ok ([fixSeries 1 "a" 0], "1") ∧
     listSeriesPage [fixSeries 1 "a" 0, fixSeries 2 "b" 0] 1 "1" =
      .ok ([fixSeries 2 "b" 0], "")) := by
  refine ⟨?_, ?_, ?_, by decide, by decide⟩
  · intro rows pageSize tok h
    have he : effPageSize pageSize = effPageSize 20 := by
      simp [effPageSize, h]
    simp only [listSeriesPage, he]
  · intro rows pageSize tok rs tok' h
    rcases hparse : parseOffsetToken tok with e | offset
    · simp [listSeriesPage, hparse] at h
    · simp only [listSeriesPage, hparse] at h
      split at h <;>
        (simp only [Except.ok.injEq, Prod.mk.injEq] at h
         obtain ⟨hrs, _⟩ := h
         subst hrs)
      · rw [List.length_take]
        omega
      · omega
  · intro rows pageSize tok offset hparse
    constructor
    · intro hgt
      have hfetch : ((rows.drop offset).take ((effPageSize pageSize).toNat + 1)).length =
          (effPageSize pageSize).toNat + 1 := by
        rw [List.length_take]
        omega
      constructor
      · simp only [listSeriesPage, hparse]
        rw [if_pos (by rw [hfetch]; omega)]
        congr 1
        congr 1
        rw [List.take_take]
        congr 1
        omega
      · exact toString_nat_ne_empty _
    · intro hle
      have hfetch : (rows.drop offset).take ((effPageSize pageSize).toNat + 1) =
          rows.drop offset :=
        List.take_of_length_le (by omega)
      simp only [listSeriesPage, hparse, hfetch]
      rw [if_neg (by omega)]

lemma validateCreateUploadParams_spec (params : CreateUploadParams) :
    (validateCreateUploadParams params = .error .validation ↔
      (params.type = .unspecified ∨ params.originalFilename = "" ∨
        params.mimeType = "" ∨ params.contentLength < 0)) ∧
    (validateCreateUploadParams params = .error .validation ∨
      validateCreateUploadParams params = .ok ()) := by
  unfold validateCreateUploadParams
  split_ifs with h1 h2 h3 h4 <;> simp_all

/-- C2: CreateUpload fails with a Validation error — calling neither the
Provider nor the Repository — exactly when the asset type is unspecified,
the filename is empty, the MIME type is empty, or the content length is
negative; for a valid input whose provider call succeeds, any returned
result carries an UploadSession in awaiting-upload and an Asset in
pending (or the provider's estimate when specified), both holding the
provider-generated asset key and both timestamped with the service clock;
and with no conflicting rows the call does return such a result. -/
theorem c2_create_upload_validation :
    (∀ provider (sessionID assetID : UUID) (now : Time) (st : AssetRepoState)
        (params : CreateUploadParams),
      ((createUpload provider sessionID assetID now st params).result = .error .validation ∧
       (createUpload provider sessionID assetID now st params).providerCalled = false ∧
       (createUpload provider sessionID assetID now st params).persistCalls = 0) ↔
      (params.type = .unspecified ∨ params.originalFilename = "" ∨
        params.mimeType = "" ∨ params.contentLength < 0)) ∧
    (∀ provider (sessionID assetID : UUID) (now : Time) (st : AssetRepoState)
        (params : CreateUploadParams) (pr : ProviderCreateUploadResult),
      validateCreateUploadParams params = .ok () →
      provider ⟨params.type, params.originalFilename, params.mimeType,
        params.contentLength⟩ = .ok pr →
      ∀ res, (createUpload provider sessionID assetID now st params).result = .ok res →
        res.session.status = .awaitingUpload ∧
        res.asset.status =
          (if pr.estimatedStatus == AssetStatus.unspecified then AssetStatus.pending
           else pr.estimatedStatus) ∧
        res.session.assetKey = pr.assetKey ∧ res.asset.assetKey = pr.assetKey ∧
        res.session.createdAt = now ∧ res.session.updatedAt = now ∧
        res.asset.createdAt = now ∧ res.asset.updatedAt = now) ∧
    (∀ provider (sessionID assetID : UUID) (now : Time) (st : AssetRepoState)
        (params : CreateUploadParams) (pr : ProviderCreateUploadResult),
      validateCreateUploadParams params = .ok () →
      provider ⟨params.type, params.originalFilename, params.mimeType,
        params.contentLength⟩ = .ok pr →
      st.sessions.any (fun row => row.id == sessionID || row.assetKey == pr.assetKey) = false →
      st.assets.any (fun row => row.id == assetID || row.assetKey == pr.assetKey) = false →
      ∃ res, (createUpload provider sessionID assetID now st params).result = .ok res) := by
  refine ⟨?_, ?_, ?_⟩
  · intro provider sessionID assetID now st params
    obtain ⟨hiff, hcases⟩ := validateCreateUploadParams_spec params
    rcases hcases with hv | hv
    · simp only [createUpload, hv]
      simpa using hiff.mp hv
    · simp only [createUpload, hv]
      constructor
      · intro hcon
        rcases hp : provider ⟨params.type, params.originalFilename, params.mimeType,
            params.contentLength⟩ with e | pr <;> simp only [hp] at hcon
        · simp at hcon
        · split at hcon
          · simp at hcon
          · split at hcon <;> simp at hcon
      · intro hbad
        rw [← hiff] at hbad
        rw [hv] at hbad
        cases hbad
  · intro provider sessionID assetID now st params pr hv hp res hres
    simp only [createUpload, hv, hp] at hres
    split at hres
    · simp at hres
    · split at hres
      · simp at hres
      · simp only [Except.ok.injEq] at hres
        subst hres
        exact ⟨rfl, rfl, rfl, rfl, rfl, rfl, rfl, rfl⟩
  · intro provider sessionID assetID now st params pr hv hp hfresh1 hfresh2
    simp only [createUpload, hv, hp]
    split
    · rename_i e heq
      simp [repoCreateUploadSession, hfresh1] at heq
    · rename_i st1 heq
      rw [repoCreateUploadSession, if_neg (by simp [hfresh1])] at heq
      injection heq with h2
      subst h2
      split
      · rename_i e heq2
        rw [repoCreateAsset, if_neg (by simp [hfresh2])] at heq2
        cases heq2
      · exact ⟨_, rfl⟩

/-- C2 witness: a concrete valid CreateUpload against an empty store
returns an awaiting-upload session and pending asset pair. -/
theorem c2_create_upload_validation_witness :
    ∃ res, (createUpload fixProviderCreate 1 2 0 ⟨[], []⟩
      ⟨.video, "f.mp4", "video/mp4", 5⟩).result = .ok res :=
  c2_create_upload_validation.2.2 fixProviderCreate 1 2 0 ⟨[], []⟩
    ⟨.video, "f.mp4", "video/mp4", 5⟩ ⟨"k1", .presignedPut, fixTarget, 100, .pending⟩
    (by decide) rfl (by decide) (by decide)

lemma find?_map_pred_inv {α : Type} (f : α → α) (p : α → Bool) (hp : ∀ x, p (f x) = p x) :
    ∀ l : List α, (l.map f).find? p = (l.find? p).map f := by
  intro l
  induction l with
  | nil => rfl
  | cons a l ih =>
    rw [List.map_cons, List.find?_cons, List.find?_cons, hp]
    cases hpa : p a <;> simp [ih]

lemma repoUpdateUploadSession_ok {st : AssetRepoState} {s' : UploadSession}
    {st1 : AssetRepoState} (h : repoUpdateUploadSession st s' = .ok st1) :
    st1 = { st with sessions := st.sessions.map (fun row =>
      if row.id == s'.id then
        { row with
          status := s'.status
          target := s'.target
          originalFilename := s'.originalFilename
          mimeType := s'.mimeType
          contentLength := s'.contentLength
          expiresAt := s'.expiresAt
          updatedAt := s'.updatedAt }
      else row) } := by
  rw [repoUpdateUploadSession] at h
  split at h
  · exact (Except.ok.inj h).symm
  · cases h

lemma repoUpdateAsset_ok {st : AssetRepoState} {a : Asset} {st1 : AssetRepoState}
    (h : repoUpdateAsset st a = .ok st1) :
    st1 = { st with assets := st.assets.map (fun row =>
      if row.id == a.id then
        { row with
          status := a.status
          originalFilename := a.originalFilename
          mimeType := a.mimeType
          filesize := a.filesize
          duration := a.duration
          playbackURL := a.playbackURL
          readyAt := a.readyAt
          updatedAt := a.updatedAt }
      else row) } := by
  rw [repoUpdateAsset] at h
  split at h
  · exact (Except.ok.inj h).symm
  · cases h

lemma lookupUploadSession_guard (r : SessionReads) (ident : UploadIdentifier)
    (hu : (ident.uploadID == 0) = true) (hk : (ident.assetKey == "") = true) :
    lookupUploadSession r ident = .error .uploadIdentifierRequired := by
  rw [lookupUploadSession, if_pos (by simp [hu, hk])]

lemma lookupUploadSession_id_found (r : SessionReads) (ident : UploadIdentifier)
    (s : UploadSession) (hu : (ident.uploadID == 0) = false)
    (hbyid : r.byID ident.uploadID = .ok s) :
    lookupUploadSession r ident = .ok s := by
  rw [lookupUploadSession, if_neg (by simp [hu])]
  have hbne : (ident.uploadID != 0) = true := by simp [bne, hu]
  simp [hbne, hbyid]

lemma lookupUploadSession_id_notFound_key (r : SessionReads) (ident : UploadIdentifier)
    (hu : (ident.uploadID == 0) = false) (hbyid : r.byID ident.uploadID = .error .notFound)
    (hk : (ident.assetKey == "") = false) :
    lookupUploadSession r ident = r.byKey ident.assetKey := by
  rw [lookupUploadSession, if_neg (by simp [hu])]
  have hbne : (ident.uploadID != 0) = true := by simp [bne, hu]
  have hkb : (ident.assetKey != "") = true := by simp [bne, hk]
  simp [hbne, hbyid, isNotFound, hkb]

lemma lookupUploadSession_id_notFound_nokey (r : SessionReads) (ident : UploadIdentifier)
    (hu : (ident.uploadID == 0) = false) (hbyid : r.byID ident.uploadID = .error .notFound)
    (hk : (ident.assetKey == "") = true) :
    lookupUploadSession r ident = .error .notFound := by
  rw [lookupUploadSession, if_neg (by simp [hu])]
  have hbne : (ident.uploadID != 0) = true := by simp [bne, hu]
  have hkb : (ident.assetKey != "") = false := by simp [bne, hk]
  simp [hbne, hbyid, isNotFound, hkb]

lemma lookupUploadSession_key_only (r : SessionReads) (ident : UploadIdentifier)
    (hu : (ident.uploadID == 0) = true) (hk : (ident.assetKey == "") = false) :
    lookupUploadSession r ident = r.byKey ident.assetKey := by
  rw [lookupUploadSession, if_neg (by simp [hk])]
  have hbne : (ident.uploadID != 0) = false := by simp [bne, hu]
  have hkb : (ident.assetKey != "") = true := by simp [bne, hk]
  simp [hbne, hkb]

/-- After a field-update of the session row found by
lookupUploadSession (one that preserves ids and asset keys), the same
identifier resolves to the updated row. -/
lemma lookupUploadSession_after_map (st st' : AssetRepoState) (ident : UploadIdentifier)
    (s : UploadSession) (g : UploadSession → UploadSession)
    (hsess : st'.sessions = st.sessions.map (fun row => if row.id == s.id then g row else row))
    (hgid : ∀ x, (g x).id = x.id) (hgkey : ∀ x, (g x).assetKey = x.assetKey)
    (hfound : lookupUploadSession (stateSessionReads st) ident = .ok s) :
    lookupUploadSession (stateSessionReads st') ident = .ok (g s) := by
  have hfid : ∀ x : UploadSession,
      ((fun row => if row.id == s.id then g row else row) x).id = x.id := by
    intro x; by_cases hx : (x.id == s.id) = true <;> simp [hx, hgid]
  have hfkey : ∀ x : UploadSession,
      ((fun row => if row.id == s.id then g row else row) x).assetKey = x.assetKey := by
    intro x; by_cases hx : (x.id == s.id) = true <;> simp [hx, hgkey]
  have hmapID : ∀ i : UUID, st'.sessions.find? (fun r => r.id == i) =
      (st.sessions.find? (fun r => r.id == i)).map
        (fun row => if row.id == s.id then g row else row) := by
    intro i
    rw [hsess]
    exact find?_map_pred_inv _ _ (fun x => by rw [hfid x]) st.sessions
  have hmapKey : ∀ k : String, st'.sessions.find? (fun r => r.assetKey == k) =
      (st.sessions.find? (fun r => r.assetKey == k)).map
        (fun row => if row.id == s.id then g row else row) := by
    intro k
    rw [hsess]
    exact find?_map_pred_inv _ _ (fun x => by rw [hfkey x]) st.sessions
  have hfs : (fun row => if row.id == s.id then g row else row) s = g s := by simp
  by_cases hu : (ident.uploadID == 0) = true
  · by_cases hk : (ident.assetKey == "") = true
    · rw [lookupUploadSession_guard _ _ hu hk] at hfound
      cases hfound
    · have hk' : (ident.assetKey == "") = false := by simpa using hk
      rw [lookupUploadSession_key_only _ _ hu hk'] at hfound
      rw [lookupUploadSession_key_only _ _ hu hk']
      simp only [stateSessionReads, getUploadSessionByAssetKey] at hfound ⊢
      rcases hfind : st.sessions.find? (fun r => r.assetKey == ident.assetKey) with _ | s0
      · rw [hfind] at hfound; cases hfound
      · rw [hfind] at hfound
        have hs0 : s0 = s := Except.ok.inj hfound
        subst hs0
        rw [hmapKey, hfind]
        simp [hfs]
  · have hu' : (ident.uploadID == 0) = false := by simpa using hu
    rcases hfind : st.sessions.find? (fun r => r.id == ident.uploadID) with _ | s0
    · -- not found by id in the original store
      have hbyid : (stateSessionReads st).byID ident.uploadID = .error .notFound := by
        simp [stateSessionReads, getUploadSessionByID, hfind]
      have hbyid' : (stateSessionReads st').byID ident.uploadID = .error .notFound := by
        simp [stateSessionReads, getUploadSessionByID, hmapID, hfind]
      by_cases hk : (ident.assetKey == "") = true
      · rw [lookupUploadSession_id_notFound_nokey _ _ hu' hbyid hk] at hfound
        cases hfound
      · have hk' : (ident.assetKey == "") = false := by simpa using hk
        rw [lookupUploadSession_id_notFound_key _ _ hu' hbyid hk'] at hfound
        rw [lookupUploadSession_id_notFound_key _ _ hu' hbyid' hk']
        simp only [stateSessionReads, getUploadSessionByAssetKey] at hfound ⊢
        rcases hfindk : st.sessions.find? (fun r => r.assetKey == ident.assetKey) with _ | s0
        · rw [hfindk] at hfound; cases hfound
        · rw [hfindk] at hfound
          have hs0 : s0 = s := Except.ok.inj hfound
          subst hs0
          rw [hmapKey, hfindk]
          simp [hfs]
    · -- found by id in the original store
      have hbyid : (stateSessionReads st).byID ident.uploadID = .ok s0 := by
        simp [stateSessionReads, getUploadSessionByID, hfind]
      rw [lookupUploadSession_id_found _ _ s0 hu' hbyid] at hfound
      have hs0 : s0 = s := Except.ok.inj hfound
      rw [hs0] at hfind hbyid
      have hbyid' : (stateSessionReads st').byID ident.uploadID = .ok (g s) := by
        simp [stateSessionReads, getUploadSessionByID, hmapID, hfind, hfs]
      exact lookupUploadSession_id_found _ _ (g s) hu' hbyid'

lemma completeUpload_invalid_state_aux (provider) (now : Time) (st : AssetRepoState)
    (params : CompleteUploadParams) (s : UploadSession)
    (hlen : ¬ params.contentLength < 0)
    (hlk : lookupUploadSession (stateSessionReads st) params.identifier = .ok s)
    (hstat : (s.status == UploadStatus.awaitingUpload ||
      s.status == UploadStatus.uploading) = false) :
    completeUpload provider now st params = ⟨.error .uploadInvalidState, st, false, 0⟩ := by
  simp [completeUpload, hlen, hlk, hstat]

/-- C1: CompleteUpload on a session whose status is neither
awaiting-upload nor uploading (notably one already completed) fails with
UploadInvalidState, makes no Provider call and no persistence write, and
leaves the whole store — the session and its paired asset included —
unchanged; consequently a second CompleteUpload on the same identifier
after a successful one errors the same way instead of returning the
prior result. -/
theorem c1_complete_upload_not_idempotent :
    (∀ provider (now : Time) (st : AssetRepoState) (params : CompleteUploadParams)
        (s : UploadSession),
      0 ≤ params.contentLength →
      svcGetUploadSession (stateSessionReads st) params.identifier = .ok s →
      s.status ≠ .awaitingUpload → s.status ≠ .uploading →
      completeUpload provider now st params = ⟨.error .uploadInvalidState, st, false, 0⟩) ∧
    (∀ provider provider2 (now now2 : Time) (st : AssetRepoState)
        (params : CompleteUploadParams) (res : CompleteUploadResult),
      (completeUpload provider now st params).result = .ok res →
      completeUpload provider2 now2 (completeUpload provider now st params).state params =
        ⟨.error .uploadInvalidState, (completeUpload provider now st params).state,
          false, 0⟩) := by
  constructor
  · intro provider now st params s hlen hlookup hs1 hs2
    exact completeUpload_invalid_state_aux provider now st params s (not_lt.mpr hlen)
      hlookup (by simp [hs1, hs2])
  · intro provider provider2 now now2 st params res h
    by_cases hlen : params.contentLength < 0
    · simp [completeUpload, hlen] at h
    · rcases hlk : lookupUploadSession (stateSessionReads st) params.identifier with e | session
      · simp [completeUpload, hlen, hlk] at h
      · by_cases hstat : (session.status == UploadStatus.awaitingUpload ||
            session.status == UploadStatus.uploading) = true
        · rcases hp : provider ⟨session.assetKey, params.checksum, params.contentLength⟩
            with e | pr
          · simp [completeUpload, hlen, hlk, hstat, hp] at h
          · rcases hupd : repoUpdateUploadSession st
                { session with status := UploadStatus.completed, updatedAt := now }
                with e | st1
            · simp [completeUpload, hlen, hlk, hstat, hp, hupd] at h
            · rcases hget : getAssetByKey st1 session.assetKey with e | asset
              · simp [completeUpload, hlen, hlk, hstat, hp, hupd, hget] at h
              · rcases hupd2 : repoUpdateAsset st1
                    { asset with
                      status := AssetStatus.ready
                      playbackURL := pr.playbackURL
                      duration := pr.duration
                      filesize := params.contentLength
                      updatedAt := now
                      readyAt := some now } with e | st2
                · simp [completeUpload, hlen, hlk, hstat, hp, hupd, hget, hupd2] at h
                · have hstate : (completeUpload provider now st params).state = st2 := by
                    simp [completeUpload, hlen, hlk, hstat, hp, hupd, hget, hupd2]
                  have h1 := repoUpdateUploadSession_ok hupd
                  have h2 := repoUpdateAsset_ok hupd2
                  subst h1
                  subst h2
                  have hlk2 : lookupUploadSession
                      (stateSessionReads (completeUpload provider now st params).state)
                      params.identifier =
                      .ok { session with status := UploadStatus.completed, updatedAt := now } := by
                    rw [hstate]
                    exact lookupUploadSession_after_map st _ params.identifier session
                      (fun row =>
                        { row with
                          status := UploadStatus.completed
                          target := session.target
                          originalFilename := session.originalFilename
                          mimeType := session.mimeType
                          contentLength := session.contentLength
                          expiresAt := session.expiresAt
                          updatedAt := now })
                      rfl (fun x => rfl) (fun x => rfl) hlk
                  rw [hstate] at hlk2 ⊢
                  have hstat2 :
                      (({ session with status := UploadStatus.completed, updatedAt := now }
                          : UploadSession).status == UploadStatus.awaitingUpload ||
                        ({ session with status := UploadStatus.completed, updatedAt := now }
                          : UploadSession).status == UploadStatus.uploading) = false := rfl
                  exact completeUpload_invalid_state_aux provider2 now2 _ params
                    { session with status := UploadStatus.completed, updatedAt := now }
                    hlen hlk2 hstat2
        · have hstat' : (session.status == UploadStatus.awaitingUpload ||
              session.status == UploadStatus.uploading) = false := by simpa using hstat
          simp [completeUpload, hlen, hlk, hstat'] at h

/-- C1 witness: completing an already-completed session at a concrete
store errors with UploadInvalidState and changes nothing. -/
theorem c1_complete_upload_not_idempotent_witness :
    completeUpload fixProviderComplete 9
      ⟨[fixSession 3 "k1" .completed], [fixAsset 4 "k1" .ready (some 5)]⟩
      ⟨⟨3, ""⟩, "sum", 5⟩ =
      ⟨.error .uploadInvalidState,
        ⟨[fixSession 3 "k1" .completed], [fixAsset 4 "k1" .ready (some 5)]⟩, false, 0⟩ :=
  c1_complete_upload_not_idempotent.1 fixProviderComplete 9
    ⟨[fixSession 3 "k1" .completed], [fixAsset 4 "k1" .ready (some 5)]⟩
    ⟨⟨3, ""⟩, "sum", 5⟩ (fixSession 3 "k1" .completed)
    (by decide) (by decide) (by decide) (by decide)

/-- C4: DeleteEpisode on an already soft-deleted episode returns its
current state unchanged with no error; on a live episode it sets status
archived and DeletedAt/UpdatedAt to now, and the same returned store
atomically carries the owning series' EpisodeCount recomputed as its
number of non-deleted episodes; any failing run leaves the store
untouched (both the status change and the recount are visible together
or not at all). -/
theorem c4_delete_episode_soft_delete :
    (∀ (now : Time) (db : SeriesDB) (id : UUID) (ep : Episode) (t : Time),
      db.episodes.find? (fun e => e.id == id) = some ep →
      ep.deletedAt = some t →
      repoDeleteEpisode now db id = (.ok ep, db)) ∧
    (∀ (now : Time) (db : SeriesDB) (id : UUID) (ep : Episode),
      db.episodes.find? (fun e => e.id == id) = some ep →
      ep.deletedAt = none →
      db.series.any (fun s => s.id == ep.seriesID) = true →
      ∃ db',
        repoDeleteEpisode now db id =
          (.ok { ep with
            status := EpisodeStatus.archived
            deletedAt := some now
            updatedAt := now }, db') ∧
        db'.episodes.find? (fun e => e.id == id) =
          some { ep with
            status := EpisodeStatus.archived
            deletedAt := some now
            updatedAt := now } ∧
        ∀ s ∈ db'.series, s.id = ep.seriesID →
          s.episodeCount = (countNonDeleted db' s.id : Int)) ∧
    (∀ (now : Time) (db : SeriesDB) (id : UUID) (e : Err),
      (repoDeleteEpisode now db id).1 = .error e → (repoDeleteEpisode now db id).2 = db) := by
  refine ⟨?_, ?_, ?_⟩
  · intro now db id ep t hfind hdel
    simp [repoDeleteEpisode, hfind, hdel]
  · intro now db id ep hfind hdel hany
    have hrec : recalcSeriesEpisodeCount now
        { db with episodes := db.episodes.map (fun e =>
          if e.id == id then { e with
            status := EpisodeStatus.archived
            deletedAt := some now
            updatedAt := now } else e) } ep.seriesID =
        .ok { db with
          episodes := db.episodes.map (fun e =>
            if e.id == id then { e with
              status := EpisodeStatus.archived
              deletedAt := some now
              updatedAt := now } else e)
          series := db.series.map (fun s =>
            if s.id == ep.seriesID then
              { s with
                episodeCount := (countNonDeleted { db with episodes := db.episodes.map (fun e =>
                  if e.id == id then { e with
                    status := EpisodeStatus.archived
                    deletedAt := some now
                    updatedAt := now } else e) } ep.seriesID : Int)
                updatedAt := now }
            else s) } := by
      rw [recalcSeriesEpisodeCount, if_pos (by simpa using hany)]
    have hpred : (ep.id == id) = true := by simpa using List.find?_some hfind
    refine ⟨{ db with
        episodes := db.episodes.map (fun e =>
          if e.id == id then { e with
            status := EpisodeStatus.archived
            deletedAt := some now
            updatedAt := now } else e)
        series := db.series.map (fun s =>
          if s.id == ep.seriesID then
            { s with
              episodeCount := (countNonDeleted { db with episodes := db.episodes.map (fun e =>
                if e.id == id then { e with
                  status := EpisodeStatus.archived
                  deletedAt := some now
                  updatedAt := now } else e) } ep.seriesID : Int)
              updatedAt := now }
          else s) }, ?_, ?_, ?_⟩
    · simp only [repoDeleteEpisode, hfind, hdel]
      rw [if_neg (by simp)]
      rw [hrec]
    · have hmap := find?_map_pred_inv
        (fun e => if e.id == id then { e with
          status := EpisodeStatus.archived
          deletedAt := some now
          updatedAt := now } else e)
        (fun e => e.id == id)
        (fun x => by by_cases hx : (x.id == id) = true <;> simp [hx])
        db.episodes
      have hpred2 : ep.id = id := by simpa using hpred
      simp only [hmap, hfind, Option.map_some]
      simp [hpred2]
    · intro s hs hsid
      simp only [List.mem_map] at hs
      obtain ⟨s0, hs0, hs0eq⟩ := hs
      by_cases hmatch : (s0.id == ep.seriesID) = true
      · rw [if_pos hmatch] at hs0eq
        subst hs0eq
        have hsid2 : s0.id = ep.seriesID := hsid
        simp [countNonDeleted, hsid2]
      · rw [if_neg hmatch] at hs0eq
        subst hs0eq
        exact absurd (by simpa using hsid) (by simpa using hmatch)
  · intro now db id e h
    rcases hfind : db.episodes.find? (fun x => x.id == id) with _ | ex
    · simp [repoDeleteEpisode, hfind]
    · by_cases hdel : (ex.deletedAt != none) = true
      · simp [repoDeleteEpisode, hfind, hdel]
      · rcases hrec : recalcSeriesEpisodeCount now { db with episodes := db.episodes.map (fun e =>
            if e.id == id then { e with
              status := EpisodeStatus.archived
              deletedAt := some now
              updatedAt := now } else e) } ex.seriesID with er | db2
        · simp only [repoDeleteEpisode, hfind]
          rw [if_neg hdel, hrec]
        · simp only [repoDeleteEpisode, hfind] at h
          rw [if_neg hdel] at h
          rw [hrec] at h
          simp at h

/-- C4 witness: deleting a live episode at a concrete store archives it
and recounts; a second delete returns it unchanged. -/
theorem c4_delete_episode_soft_delete_witness :
    (∃ db',
      repoDeleteEpisode 9 ⟨[fixSeries 1 "a" 1], [fixEpisode 5 1 1 none]⟩ 5 =
        (.ok { fixEpisode 5 1 1 none with
          status := EpisodeStatus.archived
          deletedAt := some 9
          updatedAt := 9 }, db') ∧
      db'.episodes.find? (fun e => e.id == 5) =
        some { fixEpisode 5 1 1 none with
          status := EpisodeStatus.archived
          deletedAt := some 9
          updatedAt := 9 } ∧
      ∀ s ∈ db'.series, s.id = (fixEpisode 5 1 1 none).seriesID →
        s.episodeCount = (countNonDeleted db' s.id : Int)) ∧
    repoDeleteEpisode 11 ⟨[fixSeries 1 "a" 1], [fixEpisode 5 1 1 (some 9)]⟩ 5 =
      (.ok (fixEpisode 5 1 1 (some 9)), ⟨[fixSeries 1 "a" 1], [fixEpisode 5 1 1 (some 9)]⟩) :=
  ⟨c4_delete_episode_soft_delete.2.1 9 ⟨[fixSeries 1 "a" 1], [fixEpisode 5 1 1 none]⟩ 5
      (fixEpisode 5 1 1 none) (by decide) (by decide) (by decide),
   c4_delete_episode_soft_delete.1 11 ⟨[fixSeries 1 "a" 1], [fixEpisode 5 1 1 (some 9)]⟩ 5
      (fixEpisode 5 1 1 (some 9)) 9 (by decide) (by decide)⟩

lemma countP_congr_local {α : Type} (l : List α) (f g : α → Bool)
    (h : ∀ x ∈ l, f x = g x) : l.countP f = l.countP g := by
  induction l with
  | nil => rfl
  | cons a l ih =>
    rw [List.countP_cons, List.countP_cons, h a (List.mem_cons_self a l),
      ih (fun x hx => h x (List.mem_cons_of_mem a hx))]

lemma countNonDeleted_congr {db1 db2 : SeriesDB} (h : db1.episodes = db2.episodes)
    (sid : UUID) : countNonDeleted db1 sid = countNonDeleted db2 sid := by
  unfold countNonDeleted
  rw [h]

lemma countNonDeleted_append_ne (db : SeriesDB) (e : Episode) (sid' : UUID)
    (h : ¬ e.seriesID = sid') :
    countNonDeleted { db with episodes := db.episodes ++ [e] } sid' =
      countNonDeleted db sid' := by
  unfold countNonDeleted
  rw [List.filter_append]
  have hnil : List.filter (fun x => x.seriesID == sid' && x.deletedAt == none) [e] = [] := by
    simp [h]
  simp [hnil]

lemma countNonDeleted_map_other (db : SeriesDB) (id sid : UUID) (g : Episode → Episode)
    (hgser : ∀ e, (g e).seriesID = e.seriesID)
    (honly : ∀ e ∈ db.episodes, (e.id == id) = true → e.seriesID = sid)
    (sid' : UUID) (hne : ¬ sid' = sid) :
    countNonDeleted { db with
      episodes := db.episodes.map (fun e => if e.id == id then g e else e) } sid' =
      countNonDeleted db sid' := by
  unfold countNonDeleted
  rw [← List.countP_eq_length_filter, ← List.countP_eq_length_filter, List.countP_map]
  apply countP_congr_local
  intro e he
  by_cases hid : (e.id == id) = true
  · have h1 : e.seriesID = sid := honly e he hid
    have h3 : (sid == sid') = false := by
      simpa using fun hh => hne hh.symm
    simp [Function.comp, hid, hgser, h1, h3]
  · simp [Function.comp, hid]

lemma repoInsertSeriesRow_ok {db : SeriesDB} {series : Series} {db' : SeriesDB}
    (h : repoInsertSeriesRow db series = .ok db') :
    db' = { db with series := db.series ++ [{ series with episodes := [] }] } ∧
    ∀ s ∈ db.series, ¬ s.id = series.id := by
  unfold repoInsertSeriesRow at h
  split at h
  · cases h
  · rename_i hc
    refine ⟨(Except.ok.inj h).symm, ?_⟩
    intro s hs hid
    exact hc (List.any_eq_true.mpr ⟨s, hs, by simp [hid]⟩)

lemma repoInsertEpisode_ok {db : SeriesDB} {sid : UUID} {e : Episode} {db' : SeriesDB}
    (h : repoInsertEpisode db sid e = .ok db') :
    db' = { db with episodes := db.episodes ++ [{ e with seriesID := sid }] } := by
  simp only [repoInsertEpisode] at h
  split at h
  · cases h
  · exact (Except.ok.inj h).symm

lemma repoInsertEpisodes_ok (sid : UUID) :
    ∀ (eps : List Episode) (db db' : SeriesDB),
      repoInsertEpisodes db sid eps = .ok db' →
      db'.series = db.series ∧
      ∀ sid', ¬ sid' = sid → countNonDeleted db' sid' = countNonDeleted db sid' := by
  intro eps
  induction eps with
  | nil =>
    intro db db' h
    cases Except.ok.inj h
    exact ⟨rfl, fun _ _ => rfl⟩
  | cons e rest ih =>
    intro db db' h
    simp only [repoInsertEpisodes] at h
    rcases hins : repoInsertEpisode db sid e with er | db1
    · rw [hins] at h; cases h
    · rw [hins] at h
      have hdb1 := repoInsertEpisode_ok hins
      obtain ⟨hser, hcnt⟩ := ih db1 db' h
      subst hdb1
      refine ⟨by simpa using hser, ?_⟩
      intro sid' hne
      rw [hcnt sid' hne]
      exact countNonDeleted_append_ne db _ sid' (fun hh => hne hh.symm)

lemma seriesCountInv_after_recalc {now : Time} {db : SeriesDB} {sid : UUID} {db' : SeriesDB}
    (hothers : ∀ s ∈ db.series, ¬ s.id = sid →
      s.episodeCount = (countNonDeleted db s.id : Int))
    (h : recalcSeriesEpisodeCount now db sid = .ok db') : seriesCountInv db' := by
  unfold recalcSeriesEpisodeCount at h
  split at h
  · have hdb : db' = { db with series := db.series.map (fun s =>
        if s.id == sid then
          { s with episodeCount := (countNonDeleted db sid : Int), updatedAt := now }
        else s) } := (Except.ok.inj h).symm
    subst hdb
    intro s hs
    simp only [List.mem_map] at hs
    obtain ⟨s0, hs0, rfl⟩ := hs
    by_cases hmatch : (s0.id == sid) = true
    · rw [if_pos hmatch]
      have hid : s0.id = sid := by simpa using hmatch
      simp [countNonDeleted, hid]
    · rw [if_neg hmatch]
      have hne : ¬ s0.id = sid := by simpa using hmatch
      have hh := hothers s0 hs0 hne
      simpa [countNonDeleted] using hh
  · cases h

/-- C5 (amended): after CreateSeries, CreateEpisode, DeleteEpisode, and
UpdateEpisode (with unique episode ids and the caller-supplied SeriesID
matching the stored row, as the series service requires it non-nil), each
series' stored EpisodeCount equals its number of non-soft-deleted
episodes; UpdateSeries is excluded because it persists the
caller-supplied count verbatim. -/
theorem c5_count_invariant_amended :
    ∀ (now : Time) (db : SeriesDB), seriesCountInv db →
      (∀ series : Series, seriesCountInv (repoCreateSeries now db series).2) ∧
      (∀ episode : Episode, seriesCountInv (repoCreateEpisode now db episode).2) ∧
      ((db.episodes.map (fun e => e.id)).Nodup →
        ∀ id : UUID, seriesCountInv (repoDeleteEpisode now db id).2) ∧
      ((db.episodes.map (fun e => e.id)).Nodup →
        ∀ (episode row : Episode),
          db.episodes.find? (fun e => e.id == episode.id) = some row →
          row.seriesID = episode.seriesID → ¬ episode.seriesID = 0 →
          seriesCountInv (repoUpdateEpisode now db episode).2) := by
  intro now db hinv
  refine ⟨?_, ?_, ?_, ?_⟩
  · -- CreateSeries
    intro series
    rcases hins : repoInsertSeriesRow db series with er | db1
    · simpa [repoCreateSeries, hins] using hinv
    · obtain ⟨hdb1, hfresh⟩ := repoInsertSeriesRow_ok hins
      rcases heps : repoInsertEpisodes db1 series.id series.episodes with er | db2
      · simpa [repoCreateSeries, hins, heps] using hinv
      · obtain ⟨hser2, hcnt2⟩ := repoInsertEpisodes_ok series.id series.episodes db1 db2 heps
        rcases hrec : recalcSeriesEpisodeCount now db2 series.id with er | db3
        · simpa [repoCreateSeries, hins, heps, hrec] using hinv
        · have hres : (repoCreateSeries now db series).2 = db3 := by
            simp [repoCreateSeries, hins, heps, hrec]
          rw [hres]
          refine seriesCountInv_after_recalc ?_ hrec
          intro s hs hne
          rw [hser2] at hs
          rw [hdb1] at hs
          rcases List.mem_append.mp hs with hsold | hsnew
          · rw [hcnt2 s.id hne]
            rw [hinv s hsold]
            have hcong : countNonDeleted db s.id = countNonDeleted db1 s.id := by
              rw [hdb1]
              rfl
            rw [hcong]
          · simp only [List.mem_singleton] at hsnew
            subst hsnew
            exact absurd rfl hne
  · -- CreateEpisode
    intro episode
    rcases hins : repoInsertEpisode db episode.seriesID episode with er | db1
    · simpa [repoCreateEpisode, hins] using hinv
    · have hdb1 := repoInsertEpisode_ok hins
      rcases hrec : recalcSeriesEpisodeCount now db1 episode.seriesID with er | db2
      · simpa [repoCreateEpisode, hins, hrec] using hinv
      · have hres : (repoCreateEpisode now db episode).2 = db2 := by
          simp [repoCreateEpisode, hins, hrec]
        rw [hres]
        refine seriesCountInv_after_recalc ?_ hrec
        intro s hs hne
        subst hdb1
        rw [hinv s hs]
        have := countNonDeleted_append_ne db { episode with seriesID := episode.seriesID }
          s.id (fun hh => hne hh.symm)
        rw [this]
  · -- DeleteEpisode
    intro hnodup id
    rcases hfind : db.episodes.find? (fun e => e.id == id) with _ | ex
    · simpa [repoDeleteEpisode, hfind] using hinv
    · have hexmem : ex ∈ db.episodes := List.mem_of_find?_eq_some hfind
      have hexid : ex.id = id := by simpa using List.find?_some hfind
      have honly : ∀ e ∈ db.episodes, (e.id == id) = true → e.seriesID = ex.seriesID := by
        intro e he hid
        have heid : e.id = id := by simpa using hid
        have : e = ex := List.inj_on_of_nodup_map hnodup he hexmem (by rw [heid, hexid])
        rw [this]
      by_cases hdel : (ex.deletedAt != none) = true
      · simpa [repoDeleteEpisode, hfind, hdel] using hinv
      · rcases hrec : recalcSeriesEpisodeCount now
            { db with episodes := db.episodes.map (fun e => if e.id == id then { e with
              status := EpisodeStatus.archived
              deletedAt := some now
              updatedAt := now } else e) } ex.seriesID with er | db2
        · have hres : (repoDeleteEpisode now db id).2 = db := by
            simp only [repoDeleteEpisode, hfind]
            rw [if_neg hdel, hrec]
          rw [hres]
          exact hinv
        · have hres : (repoDeleteEpisode now db id).2 = db2 := by
            simp only [repoDeleteEpisode, hfind]
            rw [if_neg hdel, hrec]
          rw [hres]
          refine seriesCountInv_after_recalc ?_ hrec
          intro s hs hne
          rw [hinv s hs]
          have := countNonDeleted_map_other db id ex.seriesID
            (fun e => { e with
              status := EpisodeStatus.archived
              deletedAt := some now
              updatedAt := now })
            (fun e => rfl) honly s.id hne
          rw [this]
  · -- UpdateEpisode
    intro hnodup episode row hfind hrow hsid0
    have hrowmem : row ∈ db.episodes := List.mem_of_find?_eq_some hfind
    have hrowid : row.id = episode.id := by simpa using List.find?_some hfind
    have honly : ∀ e ∈ db.episodes, (e.id == episode.id) = true →
        e.seriesID = episode.seriesID := by
      intro e he hid
      have heid : e.id = episode.id := by simpa using hid
      have : e = row := List.inj_on_of_nodup_map hnodup he hrowmem (by rw [heid, hrowid])
      rw [this, hrow]
    have hany : db.episodes.any (fun e => e.id == episode.id) = true :=
      List.any_eq_true.mpr ⟨row, hrowmem, by simp [hrowid]⟩
    have hzero : (episode.seriesID == 0) = false := by simpa using hsid0
    rcases hrec : recalcSeriesEpisodeCount now
        { db with episodes := db.episodes.map (fun e =>
          if e.id == episode.id then applyEpisodeUpdate e episode else e) }
        episode.seriesID with er | db2
    · have hres : (repoUpdateEpisode now db episode).2 =
          { db with episodes := db.episodes.map (fun e =>
            if e.id == episode.id then applyEpisodeUpdate e episode else e) } := by
        simp only [repoUpdateEpisode]
        rw [if_pos hany]
        rw [if_neg (by simp [hzero]), hrec]
      rw [hres]
      have hnos : ∀ s ∈ db.series, ¬ s.id = episode.seriesID := by
        unfold recalcSeriesEpisodeCount at hrec
        split at hrec
        · cases hrec
        · rename_i hc
          intro s hs hid
          exact hc (List.any_eq_true.mpr ⟨s, hs, by simp [hid]⟩)
      intro s hs
      rw [hinv s hs]
      have := countNonDeleted_map_other db episode.id episode.seriesID
        (fun e => applyEpisodeUpdate e episode) (fun e => rfl) honly s.id (hnos s hs)
      rw [this]
    · have hres : (repoUpdateEpisode now db episode).2 = db2 := by
        simp only [repoUpdateEpisode]
        rw [if_pos hany]
        rw [if_neg (by simp [hzero]), hrec]
      rw [hres]
      refine seriesCountInv_after_recalc ?_ hrec
      intro s hs hne
      rw [hinv s hs]
      have := countNonDeleted_map_other db episode.id episode.seriesID
        (fun e => applyEpisodeUpdate e episode) (fun e => rfl) honly s.id hne
      rw [this]

/-- C5 (amended) witness: the preserved invariant at a concrete store,
one conjunct per operation. -/
theorem c5_count_invariant_amended_witness :
    seriesCountInv (repoCreateEpisode 3 ⟨[fixSeries 1 "a" 0], []⟩ (fixEpisode 6 1 2 none)).2 ∧
    seriesCountInv (repoDeleteEpisode 4 ⟨[fixSeries 1 "a" 1], [fixEpisode 5 1 1 none]⟩ 5).2 :=
  ⟨(c5_count_invariant_amended 3 ⟨[fixSeries 1 "a" 0], []⟩ (by decide)).2.1
      (fixEpisode 6 1 2 none),
   ((c5_count_invariant_amended 4 ⟨[fixSeries 1 "a" 1], [fixEpisode 5 1 1 none]⟩
      (by decide)).2.2.1 (by decide)) 5⟩

lemma mem_readyIDs {assets : List Asset} {i : UUID} :
    i ∈ readyIDs assets ↔ ∃ b ∈ assets, b.status = AssetStatus.ready ∧ b.id = i := by
  unfold readyIDs
  constructor
  · intro h
    obtain ⟨b, hb, hbi⟩ := List.mem_map.mp h
    exact ⟨b, (List.mem_filter.mp hb).1, by simpa using (List.mem_filter.mp hb).2, hbi⟩
  · rintro ⟨b, hb, hbready, hbi⟩
    exact List.mem_map.mpr ⟨b, List.mem_filter.mpr ⟨hb, by simp [hbready]⟩, hbi⟩

lemma readyEverInv_unchanged {assets : List Asset} {ev : List UUID}
    (h : readyEverInv assets ev) : readyEverInv assets (ev ++ readyIDs assets) := by
  intro a ha
  obtain ⟨hiff, hready⟩ := h a ha
  refine ⟨⟨fun hsome => List.mem_append.mpr (Or.inl (hiff.mp hsome)), ?_⟩, hready⟩
  intro hmem
  rcases List.mem_append.mp hmem with hmem | hmem
  · exact hiff.mpr hmem
  · obtain ⟨b, hb, hbready, hbi⟩ := mem_readyIDs.mp hmem
    have hb2 := h b hb
    exact hiff.mpr (hbi ▸ hb2.1.mp (hb2.2 hbready))

lemma readyEverInv_append {assets : List Asset} {ev : List UUID} {new : Asset}
    (h : readyEverInv assets ev)
    (hnew1 : new.readyAt = none) (hnew2 : new.status ≠ AssetStatus.ready)
    (hnewev : new.id ∉ ev)
    (hnewid : ∀ b ∈ assets, ¬ b.id = new.id) :
    readyEverInv (assets ++ [new]) (ev ++ readyIDs (assets ++ [new])) := by
  intro a ha
  rcases List.mem_append.mp ha with ha | ha
  · obtain ⟨hiff, hready⟩ := h a ha
    refine ⟨⟨fun hsome => List.mem_append.mpr (Or.inl (hiff.mp hsome)), ?_⟩, hready⟩
    intro hmem
    rcases List.mem_append.mp hmem with hmem | hmem
    · exact hiff.mpr hmem
    · obtain ⟨b, hb, hbready, hbi⟩ := mem_readyIDs.mp hmem
      rcases List.mem_append.mp hb with hb | hb
      · have hb2 := h b hb
        exact hiff.mpr (hbi ▸ hb2.1.mp (hb2.2 hbready))
      · simp only [List.mem_singleton] at hb
        subst hb
        exact absurd hbready hnew2
  · simp only [List.mem_singleton] at ha
    subst ha
    refine ⟨⟨fun hsome => by rw [hnew1] at hsome; simp at hsome, ?_⟩,
      fun hready => absurd hready hnew2⟩
    intro hmem
    rcases List.mem_append.mp hmem with hmem | hmem
    · exact absurd hmem hnewev
    · obtain ⟨b, hb, hbready, hbi⟩ := mem_readyIDs.mp hmem
      rcases List.mem_append.mp hb with hb | hb
      · exact absurd hbi (hnewid b hb)
      · simp only [List.mem_singleton] at hb
        subst hb
        exact absurd hbready hnew2

lemma readyEverInv_map_ready {assets : List Asset} {ev : List UUID} (X : UUID)
    (g : Asset → Asset)
    (hgid : ∀ r, (g r).id = r.id)
    (hgready : ∀ r, (g r).status = AssetStatus.ready)
    (hgsome : ∀ r, (g r).readyAt.isSome = true)
    (h : readyEverInv assets ev) :
    readyEverInv (assets.map (fun r => if r.id == X then g r else r))
      (ev ++ readyIDs (assets.map (fun r => if r.id == X then g r else r))) := by
  intro a ha
  obtain ⟨r0, hr0, rfl⟩ := List.mem_map.mp ha
  by_cases hx : (r0.id == X) = true
  · rw [if_pos hx]
    have hmemready : (g r0).id ∈
        readyIDs (assets.map (fun r => if r.id == X then g r else r)) :=
      mem_readyIDs.mpr ⟨g r0, List.mem_map.mpr ⟨r0, hr0, by rw [if_pos hx]⟩, hgready r0, rfl⟩
    exact ⟨⟨fun _ => List.mem_append.mpr (Or.inr hmemready), fun _ => hgsome r0⟩,
      fun _ => hgsome r0⟩
  · rw [if_neg hx]
    obtain ⟨hiff, hready⟩ := h r0 hr0
    refine ⟨⟨fun hsome => List.mem_append.mpr (Or.inl (hiff.mp hsome)), ?_⟩, hready⟩
    intro hmem
    rcases List.mem_append.mp hmem with hmem | hmem
    · exact hiff.mpr hmem
    · obtain ⟨b, hb, hbready, hbi⟩ := mem_readyIDs.mp hmem
      obtain ⟨b0, hb0, rfl⟩ := List.mem_map.mp hb
      by_cases hbx : (b0.id == X) = true
      · rw [if_pos hbx] at hbi
        rw [hgid b0] at hbi
        rw [hbi] at hbx
        exact absurd hbx (by simpa using hx)
      · rw [if_neg hbx] at hbready hbi
        have hb2 := h b0 hb0
        exact hiff.mpr (hbi ▸ hb2.1.mp (hb2.2 hbready))

lemma readyEverInv_map_keep {assets : List Asset} {ev : List UUID} (X : UUID)
    (g : Asset → Asset)
    (hgid : ∀ r, (g r).id = r.id)
    (hgra : ∀ r, (g r).readyAt = r.readyAt)
    (hgnready : ∀ r, (g r).status ≠ AssetStatus.ready)
    (h : readyEverInv assets ev) :
    readyEverInv (assets.map (fun r => if r.id == X then g r else r))
      (ev ++ readyIDs (assets.map (fun r => if r.id == X then g r else r))) := by
  intro a ha
  obtain ⟨r0, hr0, rfl⟩ := List.mem_map.mp ha
  obtain ⟨hiff, hready⟩ := h r0 hr0
  have hback : ∀ i, i ∈ ev ++ readyIDs (assets.map (fun r => if r.id == X then g r else r)) →
      i ∈ ev ∨ ∃ b0 ∈ assets, (b0.id == X) = false ∧ b0.status = AssetStatus.ready ∧
        b0.id = i := by
    intro i hmem
    rcases List.mem_append.mp hmem with hmem | hmem
    · exact Or.inl hmem
    · obtain ⟨b, hb, hbready, hbi⟩ := mem_readyIDs.mp hmem
      obtain ⟨b0, hb0, rfl⟩ := List.mem_map.mp hb
      by_cases hbx : (b0.id == X) = true
      · rw [if_pos hbx] at hbready
        exact absurd hbready (hgnready b0)
      · rw [if_neg hbx] at hbready hbi
        exact Or.inr ⟨b0, hb0, by simpa using hbx, hbready, hbi⟩
  by_cases hx : (r0.id == X) = true
  · rw [if_pos hx]
    refine ⟨⟨?_, ?_⟩, fun hr => absurd hr (hgnready r0)⟩
    · intro hsome
      rw [hgra r0] at hsome
      rw [hgid r0]
      exact List.mem_append.mpr (Or.inl (hiff.mp hsome))
    · intro hmem
      rw [hgid r0] at hmem
      rw [hgra r0]
      rcases hback r0.id hmem with hmem | ⟨b0, hb0, _, hbready, hbi⟩
      · exact hiff.mpr hmem
      · have hb2 := h b0 hb0
        exact hiff.mpr (hbi ▸ hb2.1.mp (hb2.2 hbready))
  · rw [if_neg hx]
    refine ⟨⟨fun hsome => List.mem_append.mpr (Or.inl (hiff.mp hsome)), ?_⟩, hready⟩
    intro hmem
    rcases hback r0.id hmem with hmem | ⟨b0, hb0, _, hbready, hbi⟩
    · exact hiff.mpr hmem
    · have hb2 := h b0 hb0
      exact hiff.mpr (hbi ▸ hb2.1.mp (hb2.2 hbready))

lemma readyEverInv_filter {assets : List Asset} {ev : List UUID} (p : Asset → Bool)
    (h : readyEverInv assets ev) :
    readyEverInv (assets.filter p) (ev ++ readyIDs (assets.filter p)) := by
  intro a ha
  have ha0 : a ∈ assets := List.mem_of_mem_filter ha
  obtain ⟨hiff, hready⟩ := h a ha0
  refine ⟨⟨fun hsome => List.mem_append.mpr (Or.inl (hiff.mp hsome)), ?_⟩, hready⟩
  intro hmem
  rcases List.mem_append.mp hmem with hmem | hmem
  · exact hiff.mpr hmem
  · obtain ⟨b, hb, hbready, hbi⟩ := mem_readyIDs.mp hmem
    have hb2 := h b (List.mem_of_mem_filter hb)
    exact hiff.mpr (hbi ▸ hb2.1.mp (hb2.2 hbready))

lemma repoCreateUploadSession_ok {st : AssetRepoState} {s : UploadSession}
    {st1 : AssetRepoState} (h : repoCreateUploadSession st s = .ok st1) :
    st1 = { st with sessions := st.sessions ++ [s] } := by
  unfold repoCreateUploadSession at h
  split at h
  · cases h
  · exact (Except.ok.inj h).symm

lemma repoCreateAsset_ok {st : AssetRepoState} {a : Asset} {st1 : AssetRepoState}
    (h : repoCreateAsset st a = .ok st1) :
    st1 = { st with assets := st.assets ++ [a] } ∧ ∀ b ∈ st.assets, ¬ b.id = a.id := by
  unfold repoCreateAsset at h
  split at h
  · cases h
  · rename_i hc
    refine ⟨(Except.ok.inj h).symm, ?_⟩
    intro b hb hid
    exact hc (List.any_eq_true.mpr ⟨b, hb, by simp [hid]⟩)

lemma createUpload_readyEverInv {ev : List UUID}
    (provider : ProviderCreateUploadParams → Except Err ProviderCreateUploadResult)
    (sessionID assetID : UUID) (now : Time) (st : AssetRepoState)
    (params : CreateUploadParams)
    (hinv : readyEverInv st.assets ev) (hfresh : assetID ∉ ev)
    (hest : ∀ r, provider ⟨params.type, params.originalFilename, params.mimeType,
      params.contentLength⟩ = .ok r → r.estimatedStatus ≠ AssetStatus.ready) :
    readyEverInv (createUpload provider sessionID assetID now st params).state.assets
      (ev ++ readyIDs (createUpload provider sessionID assetID now st params).state.assets) := by
  rcases hv : validateCreateUploadParams params with e | u
  · have hst : (createUpload provider sessionID assetID now st params).state = st := by
      simp only [createUpload, hv]
    rw [hst]
    exact readyEverInv_unchanged hinv
  · rcases hp : provider ⟨params.type, params.originalFilename, params.mimeType,
        params.contentLength⟩ with e | pr
    · have hst : (createUpload provider sessionID assetID now st params).state = st := by
        simp only [createUpload, hv, hp]
      rw [hst]
      exact readyEverInv_unchanged hinv
    · rcases hs : repoCreateUploadSession st
          { id := sessionID, assetKey := pr.assetKey, type := params.type,
            protocol := pr.protocol, status := UploadStatus.awaitingUpload,
            target := pr.target, originalFilename := params.originalFilename,
            mimeType := params.mimeType, contentLength := params.contentLength,
            expiresAt := pr.expiresAt, createdAt := now, updatedAt := now } with e | st1
      · have hst : (createUpload provider sessionID assetID now st params).state = st := by
          simp only [createUpload, hv, hp, hs]
        rw [hst]
        exact readyEverInv_unchanged hinv
      · have hst1 := repoCreateUploadSession_ok hs
        rcases ha : repoCreateAsset st1
            { id := assetID, assetKey := pr.assetKey, type := params.type,
              status := if pr.estimatedStatus == AssetStatus.unspecified then
                AssetStatus.pending else pr.estimatedStatus,
              originalFilename := params.originalFilename, mimeType := params.mimeType,
              filesize := params.contentLength, duration := 0, playbackURL := "",
              createdAt := now, updatedAt := now, readyAt := none } with e | st2
        · have hst : (createUpload provider sessionID assetID now st params).state = st1 := by
            simp only [createUpload, hv, hp, hs, ha]
          rw [hst]
          subst hst1
          exact readyEverInv_unchanged hinv
        · have hst : (createUpload provider sessionID assetID now st params).state = st2 := by
            simp only [createUpload, hv, hp, hs, ha]
          rw [hst]
          obtain ⟨hst2, hfreshin⟩ := repoCreateAsset_ok ha
          subst hst2
          subst hst1
          refine readyEverInv_append hinv rfl ?_ hfresh hfreshin
          by_cases hu : (pr.estimatedStatus == AssetStatus.unspecified) = true
          · simp only [hu, if_true]
            decide
          · simp only [hu]
            rw [if_neg (by simpa using hu)]
            exact hest pr hp

lemma completeUpload_readyEverInv {ev : List UUID}
    (provider : ProviderCompleteUploadParams → Except Err ProviderCompleteUploadResult)
    (now : Time) (st : AssetRepoState) (params : CompleteUploadParams)
    (hinv : readyEverInv st.assets ev) :
    readyEverInv (completeUpload provider now st params).state.assets
      (ev ++ readyIDs (completeUpload provider now st params).state.assets) := by
  by_cases hlen : params.contentLength < 0
  · have hst : (completeUpload provider now st params).state = st := by
      simp [completeUpload, hlen]
    rw [hst]
    exact readyEverInv_unchanged hinv
  · rcases hlk : lookupUploadSession (stateSessionReads st) params.identifier with e | session
    · have hst : (completeUpload provider now st params).state = st := by
        simp [completeUpload, hlen, hlk]
      rw [hst]
      exact readyEverInv_unchanged hinv
    · by_cases hstat : (session.status == UploadStatus.awaitingUpload ||
          session.status == UploadStatus.uploading) = true
      · rcases hp : provider ⟨session.assetKey, params.checksum, params.contentLength⟩
            with e | pr
        · have hst : (completeUpload provider now st params).state = st := by
            simp [completeUpload, hlen, hlk, hstat, hp]
          rw [hst]
          exact readyEverInv_unchanged hinv
        · rcases hupd : repoUpdateUploadSession st
              { session with status := UploadStatus.completed, updatedAt := now }
              with e | st1
          · have hst : (completeUpload provider now st params).state = st := by
              simp [completeUpload, hlen, hlk, hstat, hp, hupd]
            rw [hst]
            exact readyEverInv_unchanged hinv
          · have hst1 := repoUpdateUploadSession_ok hupd
            rcases hget : getAssetByKey st1 session.assetKey with e | asset
            · have hst : (completeUpload provider now st params).state = st1 := by
                simp [completeUpload, hlen, hlk, hstat, hp, hupd, hget]
              rw [hst]
              subst hst1
              exact readyEverInv_unchanged hinv
            · rcases hupd2 : repoUpdateAsset st1
                  { asset with
                    status := AssetStatus.ready
                    playbackURL := pr.playbackURL
                    duration := pr.duration
                    filesize := params.contentLength
                    updatedAt := now
                    readyAt := some now } with e | st2
              · have hst : (completeUpload provider now st params).state = st1 := by
                  simp [completeUpload, hlen, hlk, hstat, hp, hupd, hget, hupd2]
                rw [hst]
                subst hst1
                exact readyEverInv_unchanged hinv
              · have hst : (completeUpload provider now st params).state = st2 := by
                  simp [completeUpload, hlen, hlk, hstat, hp, hupd, hget, hupd2]
                rw [hst]
                have hst2 := repoUpdateAsset_ok hupd2
                subst hst2
                subst hst1
                exact readyEverInv_map_ready asset.id _ (fun r => rfl) (fun r => rfl)
                  (fun r => rfl) hinv
      · have hst : (completeUpload provider now st params).state = st := by
          have hstat' : (session.status == UploadStatus.awaitingUpload ||
              session.status == UploadStatus.uploading) = false := by simpa using hstat
          simp [completeUpload, hlen, hlk, hstat']
        rw [hst]
        exact readyEverInv_unchanged hinv

lemma deleteAsset_readyEverInv {ev : List UUID} (now : Time) (st : AssetRepoState)
    (id : UUID) (hardDelete : Bool) (hinv : readyEverInv st.assets ev) :
    readyEverInv (svcDeleteAsset now st id hardDelete).2.assets
      (ev ++ readyIDs (svcDeleteAsset now st id hardDelete).2.assets) := by
  by_cases hid : (id == 0) = true
  · have hst : (svcDeleteAsset now st id hardDelete).2 = st := by
      simp [svcDeleteAsset, hid]
    rw [hst]
    exact readyEverInv_unchanged hinv
  · have hid' : (id == 0) = false := by simpa using hid
    cases hardDelete
    · -- soft delete
      rcases hfind : st.assets.find? (fun row => row.id == id) with _ | row
      · have hst : (svcDeleteAsset now st id false).2 = st := by
          simp [svcDeleteAsset, hid', repoDeleteAsset, hfind]
        rw [hst]
        exact readyEverInv_unchanged hinv
      · have hst : (svcDeleteAsset now st id false).2 =
            { st with assets := st.assets.map (fun r =>
              if r.id == id then { r with status := AssetStatus.deleted, updatedAt := now }
              else r) } := by
          simp [svcDeleteAsset, hid', repoDeleteAsset, hfind]
        rw [hst]
        exact readyEverInv_map_keep id _ (fun r => rfl) (fun r => rfl)
          (fun r => by simp) hinv
    · -- hard delete
      by_cases hany : (st.assets.any (fun row => row.id == id)) = true
      · have hst : (svcDeleteAsset now st id true).2 =
            { st with assets := st.assets.filter (fun row => !(row.id == id)) } := by
          simp [svcDeleteAsset, hid', repoDeleteAsset, hany]
        rw [hst]
        exact readyEverInv_filter _ hinv
      · have hst : (svcDeleteAsset now st id true).2 = st := by
          simp only [svcDeleteAsset, repoDeleteAsset]
          rw [if_neg (by simp [hid'])]
          simp only [if_true]
          rw [if_neg hany]
        rw [hst]
        exact readyEverInv_unchanged hinv

/-- C8 (amended): for every asset reachable through CreateUpload (when
the provider never estimates a fresh asset as already ready),
CompleteUpload, and DeleteAsset, ReadyAt is set exactly when the asset's
status has reached ready at least once (the ghost history `ever`);
UpdateAsset is excluded because it persists the caller-supplied Status
and ReadyAt verbatim. -/
theorem c8_ready_at_invariant_amended :
    ∀ (st : AssetRepoState) (ev : List UUID), AssetReachSafe st ev →
      readyAtMatchesHistory st.assets ev := by
  intro st ev h
  have hfull : readyEverInv st.assets ev := by
    induction h with
    | init => intro a ha; cases ha
    | stepCreateUpload provider sessionID assetID now params hfresh hest hprev ih =>
      exact createUpload_readyEverInv provider sessionID assetID now _ params ih hfresh hest
    | stepCompleteUpload provider now params hprev ih =>
      exact completeUpload_readyEverInv provider now _ params ih
    | stepDeleteAsset now id hardDelete hprev ih =>
      exact deleteAsset_readyEverInv now _ id hardDelete ih
  intro a ha
  exact (hfull a ha).1

/-- C8 (amended) witness: the invariant at the concrete state reached by
one CreateUpload against the empty store. -/
theorem c8_ready_at_invariant_amended_witness :
    readyAtMatchesHistory
      (createUpload fixProviderCreate 1 2 0 ⟨[], []⟩
        ⟨.video, "f.mp4", "video/mp4", 5⟩).state.assets
      ([] ++ readyIDs (createUpload fixProviderCreate 1 2 0 ⟨[], []⟩
        ⟨.video, "f.mp4", "video/mp4", 5⟩).state.assets) :=
  c8_ready_at_invariant_amended _ _
    (AssetReachSafe.stepCreateUpload fixProviderCreate 1 2 0
      ⟨.video, "f.mp4", "video/mp4", 5⟩ (by decide)
      (fun r hr => by cases hr; decide) AssetReachSafe.init)

/-- C8 counterexample: the claim quantifies over all four asset-service
operations, but UpdateAsset persists the caller-supplied Status and
ReadyAt verbatim: creating an upload (asset id 2, pending) and then
updating the asset to status ready with ReadyAt unset reaches a store
whose asset has reached ready (it is in the ghost history) while its
ReadyAt is nil — the stated equivalence fails. -/
theorem c8_ready_at_invariant_counterexample :
    ∃ (st : AssetRepoState) (ev : List UUID), AssetReach st ev ∧
      ¬ readyAtMatchesHistory st.assets ev := by
  refine ⟨_, _, AssetReach.stepUpdateAsset 1 (fixAsset 2 "k1" .ready none)
    (AssetReach.stepCreateUpload fixProviderCreate 1 2 0
      ⟨.video, "f.mp4", "video/mp4", 5⟩ (by decide) AssetReach.init), ?_⟩
  decide

/-- C9 witness: the general pagination facts applied at page size 1,
token "1", over a 3-row result set. -/
theorem c9_list_series_pagination_witness :
    listSeriesPage [fixSeries 1 "a" 0, fixSeries 2 "b" 0, fixSeries 3 "c" 0] 1 "1" =
      .ok ([fixSeries 2 "b" 0], toString (1 + (effPageSize 1).toNat)) ∧
    toString (1 + (effPageSize 1).toNat) ≠ "" := by
  have h := ((c9_list_series_pagination.2.2.1
    [fixSeries 1 "a" 0, fixSeries 2 "b" 0, fixSeries 3 "c" 0] 1 "1" 1 (by decide)).1
    (by decide))
  simpa using h

end Lession
